import Mathlib

/-!
Verification development for the notebridge repository: a shallow embedding of
the bidirectional org/markdown converter (`convert/org_to_md.go`,
`convert/md_to_org.go`), the change detector (`internal/state/state.go`), the
conflict resolver and sync orchestrator (`internal/sync/sync.go`).

Strings are modelled as `List Char` (Go strings are byte slices holding UTF-8;
all the byte-level operations the embedded code performs — prefix tests,
trimming, splitting on ASCII delimiters, single-byte indexing into
ASCII-prefixed slices — coincide with the character-level operations on the
decoded rune sequence for the inputs in scope, which is what this model uses).
-/

namespace NoteBridge

abbrev Str := List Char

set_option maxRecDepth 100000 in
set_option maxRecDepth 20000 in
/-- Characters accepted by Go's `unicode.IsSpace` that can occur in this
development (ASCII whitespace plus NEL and NBSP). -/
def isSpaceChar (c : Char) : Bool :=
  c = ' ' || c = '\t' || c = '\n' || c = (Char.ofNat 11) || c = (Char.ofNat 12) ||
  c = (Char.ofNat 13) || c = (Char.ofNat 0x85) || c = (Char.ofNat 0xA0)

/-- `strings.TrimSpace`, leading part. -/
def trimLeft (s : Str) : Str := s.dropWhile isSpaceChar

/-- `strings.TrimSpace`, trailing part. -/
def trimRight (s : Str) : Str := (s.reverse.dropWhile isSpaceChar).reverse

/-- Go `strings.TrimSpace`. -/
def trimSpace (s : Str) : Str := trimRight (trimLeft s)

/-- Go `strings.HasPrefix s p`. -/
def startsWith (s p : Str) : Bool := p.isPrefixOf s

/-- Go `strings.TrimPrefix s p`. -/
def trimPref (s p : Str) : Str := if startsWith s p then s.drop p.length else s

/-- Go `strings.HasSuffix s p`. -/
def endsWith (s p : Str) : Bool := p.isSuffixOf s

/-- Split a string on a single character; Go `strings.Split s (string c)`.
`splitOnChar c s` always returns at least one (possibly empty) piece. -/
def splitOnChar (c : Char) : Str → List Str
  | [] => [[]]
  | x :: xs =>
    let r := splitOnChar c xs
    if x = c then [] :: r
    else
      match r with
      | [] => [[x]]
      | h :: t => (x :: h) :: t

/-- Go `strings.Split s "\n"`. -/
def splitLines (s : Str) : List Str := splitOnChar '\n' s

/-- Go `strings.Fields`: split around runs of whitespace, no empty fields. -/
def fields (s : Str) : List Str :=
  let rec go : Str → Str → List Str
    | [], acc => if acc.isEmpty then [] else [acc.reverse]
    | c :: cs, acc =>
      if isSpaceChar c then
        if acc.isEmpty then go cs [] else acc.reverse :: go cs []
      else go cs (c :: acc)
  go s []

/-- Go `strings.Repeat (string c) n`. -/
def repC (n : Nat) (c : Char) : Str := List.replicate n c

/-- ASCII uppercasing of one character (Go `strings.ToUpper` on the ASCII
subset the embedded code feeds it). -/
def upChar (c : Char) : Char :=
  if 'a' ≤ c ∧ c ≤ 'z' then Char.ofNat (c.toNat - 32) else c

/-- ASCII lowercasing of one character (Go `strings.ToLower` on the ASCII
subset the embedded code feeds it). -/
def lowChar (c : Char) : Char :=
  if 'A' ≤ c ∧ c ≤ 'Z' then Char.ofNat (c.toNat + 32) else c

def toUpperStr (s : Str) : Str := s.map upChar

def toLowerStr (s : Str) : Str := s.map lowChar

/-- Go `strings.Index s sub`: first index of `sub` in `s`, or none. -/
def indexOfSub (s sub : Str) : Option Nat :=
  let rec go : Str → Nat → Option Nat
    | t, i =>
      if startsWith t sub then some i
      else match t with
        | [] => none
        | _ :: ts => go ts (i + 1)
  go s 0

/-- Whether `sub` occurs anywhere in `s` (`strings.Contains`). -/
def containsSub (s sub : Str) : Bool := (indexOfSub s sub).isSome

/-- Go `strings.Count s (string c)` specialised to one character. -/
def countChar (s : Str) (c : Char) : Nat := (s.filter (· = c)).length

/-- Go `strings.Trim s cutset` specialised to the one-character cutsets the
source uses. -/
def trimChar (c : Char) (s : Str) : Str :=
  ((s.dropWhile (· = c)).reverse.dropWhile (· = c)).reverse

/-- Go `strings.Join parts sep` specialised to the separators the source
uses. -/
def joinWith (sep : Str) : List Str → Str
  | [] => []
  | [x] => x
  | x :: xs => x ++ sep ++ joinWith sep xs

def strOf (s : String) : Str := s.toList

/-- `countLeadingChars` from `convert/org_to_md.go`: counts the leading
occurrences of `ch` (the Go loop breaks at the first rune that differs). -/
def countLeadingChars (s : Str) (ch : Char) : Nat := (s.takeWhile (· = ch)).length

/-- `isUUID` from `convert/md_to_org.go`: 36 characters with exactly four
hyphens. -/
def isUUID (s : Str) : Bool := s.length = 36 && countChar s '-' = 4

/-- `isImageFile` from `convert/md_to_org.go`. -/
def isImageFile (filename : Str) : Bool :=
  let lower := toLowerStr filename
  [".png", ".jpg", ".jpeg", ".gif", ".svg", ".webp", ".bmp", ".ico",
   ".tiff", ".tif"].any (fun ext => endsWith lower (strOf ext))

/-- One date-shaped group `\d{4}-\d{2}-\d{2}` as used by the regexes in
`extractOrgDate`. Matches at the head of `s`; returns the matched ten
characters and the rest. -/
def matchDateShape (s : Str) : Option Str :=
  match s with
  | y1 :: y2 :: y3 :: y4 :: h1 :: m1 :: m2 :: h2 :: d1 :: d2 :: _ =>
    if y1.isDigit && y2.isDigit && y3.isDigit && y4.isDigit && h1 = '-' &&
       m1.isDigit && m2.isDigit && h2 = '-' && d1.isDigit && d2.isDigit then
      some [y1, y2, y3, y4, h1, m1, m2, h2, d1, d2]
    else none
  | _ => none

/-- First match of `open (\d{4}-\d{2}-\d{2})` in `s` (the two regexes of
`extractOrgDate` differ only in the opening bracket character). -/
def findDateAfter (opard : Char) : Str → Option Str
  | [] => none
  | c :: cs =>
    if c = opard then
      match matchDateShape cs with
      | some d => some d
      | none => findDateAfter opard cs
    else findDateAfter opard cs

/-- `extractOrgDate` from `convert/org_to_md.go`: date out of
`SCHEDULED: <2024-01-15>` (and `[2024-01-15]` for CLOSED). -/
def extractOrgDate (line : Str) : Str :=
  match findDateAfter '<' line with
  | some d => d
  | none =>
    match findDateAfter '[' line with
    | some d => d
    | none => []

/-- Worker for `parseOrgAliases`; the fuel argument (instantiated with the
string length) only serves termination — each step consumes at least one
character. -/
def parseOrgAliasesGo : Nat → Str → List Str
  | 0, _ => []
  | _ + 1, [] => []
  | fuel + 1, c :: cs =>
    if c = '"' then
      let body := cs.takeWhile (· ≠ '"')
      let rest := cs.dropWhile (· ≠ '"')
      match body, rest with
      | [], _ => parseOrgAliasesGo fuel cs
      | b, _ :: rest2 => b :: parseOrgAliasesGo fuel rest2
      | _ :: _, [] => []
    else parseOrgAliasesGo fuel cs

/-- `parseOrgAliases` from `convert/org_to_md.go`: all matches of the regex
`"([^"]+)"`. -/
def parseOrgAliases (s : Str) : List Str := parseOrgAliasesGo s.length s

/-- `parseOrgTags` from `convert/org_to_md.go`: `:tag1:tag2:` format. -/
def parseOrgTags (s : Str) : List Str :=
  let t := trimChar ':' s
  if t = [] then [] else splitOnChar ':' t

/-! ### Regex replacement scanners

Go's `regexp.ReplaceAllString(Func)` walks the subject left to right replacing
leftmost non-overlapping matches.  The fixed patterns the converter uses are
transcribed as match-at-position functions plus a generic scanner.  The fuel
argument (instantiated with the subject length) only serves termination: a
successful match always consumes at least one character. -/

/-- Generic left-to-right replace-all: `f` tries to match at the current
position and returns the replacement text and the remainder after the match. -/
def replScan (f : Str → Option (Str × Str)) : Nat → Str → Str
  | 0, s => s
  | _ + 1, [] => []
  | fuel + 1, c :: cs =>
    match f (c :: cs) with
    | some (repl, after) => repl ++ replScan f fuel after
    | none => c :: replScan f fuel cs

/-- Stateful variant threading a natural-number state (the ID-generator
counter) through the replacements. -/
def replScanSt (f : Str → Nat → Option (Str × Str × Nat)) : Nat → Str → Nat → Str × Nat
  | 0, s, n => (s, n)
  | _ + 1, [], n => ([], n)
  | fuel + 1, c :: cs, n =>
    match f (c :: cs) n with
    | some (repl, after, n2) =>
      let r := replScanSt f fuel after n2
      (repl ++ r.1, r.2)
    | none =>
      let r := replScanSt f fuel cs n
      (c :: r.1, r.2)

/-- Match of `\[\[id:([^\]]+)\](?:\[([^\]]+)\])?\]` at the head of `s`
(pattern of `convertOrgLinks`); yields uuid, optional description, rest. -/
def matchOrgLinkAt (s : Str) : Option (Str × Str × Str) :=
  if startsWith s (strOf "[[id:") then
    let s1 := s.drop 5
    let uuid := s1.takeWhile (· ≠ ']')
    if uuid = [] then none
    else
      match s1.dropWhile (· ≠ ']') with
      | ']' :: s3 =>
        -- greedy attempt at the optional `\[([^\]]+)\]`, then the final `\]`
        let noDesc : Option (Str × Str × Str) :=
          match s3 with
          | ']' :: s6 => some (uuid, [], s6)
          | _ => none
        match s3 with
        | '[' :: s4 =>
          let desc := s4.takeWhile (· ≠ ']')
          if desc = [] then noDesc
          else
            match s4.dropWhile (· ≠ ']') with
            | ']' :: ']' :: s6 => some (uuid, desc, s6)
            | _ => noDesc
        | _ => noDesc
      | _ => none
  else none

/-- `convertOrgLinks` from `convert/org_to_md.go`: org-roam ID links to
wikilinks, resolving the uuid through `idMap` (uuid as fallback name). -/
def convertOrgLinks (line : Str) (idMap : List (Str × Str)) : Str :=
  replScan
    (fun s =>
      match matchOrgLinkAt s with
      | some (uuid, desc, after) =>
        let filename :=
          match idMap.lookup uuid with
          | some f => f
          | none => uuid
        let repl :=
          if desc ≠ [] then strOf "[[" ++ filename ++ strOf "|" ++ desc ++ strOf "]]"
          else strOf "[[" ++ filename ++ strOf "]]"
        some (repl, after)
      | none => none)
    line.length line

/-- Go `strings.Replace s old new 1` (first occurrence only). -/
def replaceFirst : Str → Str → Str → Str
  | [], _, _ => []
  | c :: cs, pat, new =>
    if startsWith (c :: cs) pat ∧ pat ≠ [] then new ++ (c :: cs).drop pat.length
    else c :: replaceFirst cs pat new

/-- Match of `\[\[file:([^\]]+)\]\]` at the head of `s` (second pattern of
`convertOrgEmbeds`). -/
def matchFileLinkAt (s : Str) : Option (Str × Str) :=
  if startsWith s (strOf "[[file:") then
    let s1 := s.drop 7
    let fn := s1.takeWhile (· ≠ ']')
    if fn = [] then none
    else
      match s1.dropWhile (· ≠ ']') with
      | ']' :: ']' :: s2 => some (fn, s2)
      | _ => none
  else none

/-- `convertOrgEmbeds` from `convert/org_to_md.go`:
`# EMBED: note` → `![[note]]` and `[[file:image.png]]` → `![[image.png]]`. -/
def convertOrgEmbeds (line : Str) : Str :=
  let t := trimSpace line
  if startsWith t (strOf "# EMBED:") then
    let embedTarget := trimSpace (trimPref t (strOf "# EMBED:"))
    replaceFirst line t (strOf "![[" ++ embedTarget ++ strOf "]]")
  else
    replScan
      (fun s =>
        match matchFileLinkAt s with
        | some (fn, after) => some (strOf "![[" ++ fn ++ strOf "]]", after)
        | none => none)
      line.length line

/-- Match of `!\[\[([^\]|#]+)(?:#([^\]]+))?\]\]` at the head of `s`
(pattern of `convertMarkdownEmbeds`); yields filename, optional heading,
rest. -/
def matchMdEmbedAt (s : Str) : Option (Str × Str × Str) :=
  if startsWith s (strOf "![[") then
    let s1 := s.drop 3
    let fn := s1.takeWhile (fun c => c ≠ ']' ∧ c ≠ '|' ∧ c ≠ '#')
    if fn = [] then none
    else
      match s1.dropWhile (fun c => c ≠ ']' ∧ c ≠ '|' ∧ c ≠ '#') with
      | '#' :: s2 =>
        let hd := s2.takeWhile (· ≠ ']')
        if hd = [] then none
        else
          match s2.dropWhile (· ≠ ']') with
          | ']' :: ']' :: s3 => some (fn, hd, s3)
          | _ => none
      | ']' :: ']' :: s3 => some (fn, [], s3)
      | _ => none
  else none

/-- `convertMarkdownEmbeds` from `convert/md_to_org.go`:
`![[image.png]]` → `[[file:image.png]]`, `![[note]]` → `# EMBED: note`. -/
def convertMarkdownEmbeds (line : Str) : Str :=
  replScan
    (fun s =>
      match matchMdEmbedAt s with
      | some (fn, hd, after) =>
        let repl :=
          if isImageFile fn then strOf "[[file:" ++ fn ++ strOf "]]"
          else if hd ≠ [] then strOf "# EMBED: " ++ fn ++ strOf "#" ++ hd
          else strOf "# EMBED: " ++ fn
        some (repl, after)
      | none => none)
    line.length line

/-- Match of `\[\[([^\]|]+)(?:\|([^\]]+))?\]\]` at the head of `s`
(pattern of `convertMarkdownLinks`); yields filename, optional description,
rest. -/
def matchWikilinkAt (s : Str) : Option (Str × Str × Str) :=
  if startsWith s (strOf "[[") then
    let s1 := s.drop 2
    let fn := s1.takeWhile (fun c => c ≠ ']' ∧ c ≠ '|')
    if fn = [] then none
    else
      match s1.dropWhile (fun c => c ≠ ']' ∧ c ≠ '|') with
      | '|' :: s2 =>
        let desc := s2.takeWhile (· ≠ ']')
        if desc = [] then none
        else
          match s2.dropWhile (· ≠ ']') with
          | ']' :: ']' :: s3 => some (fn, desc, s3)
          | _ => none
      | ']' :: ']' :: s3 => some (fn, [], s3)
      | _ => none
  else none

/-- Reverse map filename → id built by `convertMarkdownLinks` (Go iterates the
map; on duplicate filenames the entry written last wins, which the list model
realises by a left fold). -/
def reverseMap (idMap : List (Str × Str)) : List (Str × Str) :=
  idMap.foldl (fun acc p => (p.2, p.1) :: acc.filter (fun q => q.1 ≠ p.2)) []

/-- `convertMarkdownLinks` from `convert/md_to_org.go`, with `uuid.New()`
modelled by the injected generator `gen` applied to a running counter (one
fresh value per generated ID).  Returns the converted line, the idMap as the
call leaves it (the source never writes to the map), and the new counter. -/
def convertMarkdownLinksFull (gen : Nat → Str) (line : Str) (idMap : List (Str × Str))
    (n : Nat) : Str × List (Str × Str) × Nat :=
  let rev := reverseMap idMap
  let r := replScanSt
    (fun s k =>
      match matchWikilinkAt s with
      | some (fn, desc, after) =>
        let (uuid, k2) :=
          match rev.lookup fn with
          | some u => (u, k)
          | none => if isUUID fn then (fn, k) else (gen k, k + 1)
        let repl :=
          if desc ≠ [] then
            strOf "[[id:" ++ uuid ++ strOf "][" ++ desc ++ strOf "]]"
          else strOf "[[id:" ++ uuid ++ strOf "]]"
        some (repl, after, k2)
      | none => none)
    line.length line n
  (r.1, idMap, r.2)

def convertMarkdownLinks (gen : Nat → Str) (line : Str) (idMap : List (Str × Str))
    (n : Nat) : Str × Nat :=
  let r := convertMarkdownLinksFull gen line idMap n
  (r.1, r.2.2)

/-! ### Properties drawer / front matter extraction -/

/-- Accumulator of `extractOrgPropertiesFromLines`. -/
structure OrgProps where
  inProps : Bool := false
  id : Str := []
  title : Str := []
  aliases : List Str := []
  tags : List Str := []
  refs : List Str := []
  body : List Str := []
deriving Repr, DecidableEq

/-- One iteration of the line loop in `extractOrgPropertiesFromLines`.
The source additionally guards the body append with `i > propertiesEnd`,
which is always true when evaluated (`propertiesEnd` only ever holds the
index of an already-passed `:END:` line), so the guard is omitted. -/
def orgPropsStep (st : OrgProps) (line : Str) : OrgProps :=
  let t := trimSpace line
  if t = strOf ":PROPERTIES:" then { st with inProps := true }
  else if t = strOf ":END:" ∧ st.inProps then { st with inProps := false }
  else if st.inProps then
    if startsWith t (strOf ":ID:") then { st with id := trimSpace (t.drop 4) }
    else if startsWith t (strOf ":ROAM_ALIASES:") then
      { st with aliases := parseOrgAliases (trimSpace (t.drop 14)) }
    else if startsWith t (strOf ":ROAM_REFS:") then
      { st with refs := fields (trimSpace (t.drop 11)) }
    else st
  else if startsWith t (strOf "#+title:") then { st with title := trimSpace (t.drop 8) }
  else if startsWith t (strOf "#+filetags:") then
    { st with tags := parseOrgTags (trimSpace (t.drop 11)) }
  else { st with body := st.body ++ [line] }

/-- YAML-style front matter text built by `extractOrgPropertiesFromLines`. -/
def buildFrontMatter (st : OrgProps) : Str :=
  (if st.id ≠ [] then strOf "id: " ++ st.id ++ strOf "\n" else []) ++
  (if st.title ≠ [] then strOf "title: " ++ st.title ++ strOf "\n" else []) ++
  (if st.aliases ≠ [] then
    strOf "aliases:\n" ++
      (st.aliases.map (fun a => strOf "  - " ++ a ++ strOf "\n")).flatten
   else []) ++
  (if st.tags ≠ [] then
    strOf "tags:\n" ++ (st.tags.map (fun a => strOf "  - " ++ a ++ strOf "\n")).flatten
   else []) ++
  (if st.refs ≠ [] then
    strOf "refs:\n" ++ (st.refs.map (fun a => strOf "  - " ++ a ++ strOf "\n")).flatten
   else [])

/-- `extractOrgPropertiesFromLines` from `convert/org_to_md.go`: returns the
front matter text and the body lines (leading blank body lines dropped). -/
def extractOrgPropertiesFromLines (lines : List Str) : Str × List Str :=
  let st := lines.foldl orgPropsStep {}
  (buildFrontMatter st, st.body.dropWhile (fun l => trimSpace l = []))

/-- Front matter fields of `extractYAMLFromLines`. -/
structure FrontMatter where
  id : Str := []
  title : Str := []
  aliases : List Str := []
  tags : List Str := []
  refs : List Str := []
deriving Repr, DecidableEq

/-- Strip one layer of surrounding double quotes, as YAML decoding of a
quoted scalar does. -/
def unquote (s : Str) : Str :=
  match s with
  | '"' :: rest =>
    match rest.reverse with
    | '"' :: mid => mid.reverse
    | _ => s
  | _ => s

/-- Models `yaml.Unmarshal` from gopkg.in/yaml.v3 restricted to the YAML
subset this program emits and consumes: top-level `key: value` scalars and
`key:` followed by `- item` list entries for the five known keys
(id/title/aliases/tags/refs); unknown scalar keys are ignored, anything else
is a decoding error (`none`). -/
def parseYamlSubset (lines : List Str) : Option FrontMatter :=
  let rec go : List Str → FrontMatter → Option Str → Option FrontMatter
    | [], fm, _ => some fm
    | l :: ls, fm, ctx =>
      let t := trimSpace l
      if t = [] then go ls fm ctx
      else if startsWith t (strOf "- ") then
        let item := unquote (trimSpace (t.drop 2))
        match ctx with
        | some key =>
          if key = strOf "aliases" then go ls { fm with aliases := fm.aliases ++ [item] } ctx
          else if key = strOf "tags" then go ls { fm with tags := fm.tags ++ [item] } ctx
          else if key = strOf "refs" then go ls { fm with refs := fm.refs ++ [item] } ctx
          else go ls fm ctx
        | none => none
      else
        match indexOfSub t (strOf ":") with
        | none => none
        | some i =>
          let key := t.take i
          let val := trimSpace (t.drop (i + 1))
          if val = [] then go ls fm (some key)
          else if key = strOf "id" then go ls { fm with id := unquote val } none
          else if key = strOf "title" then go ls { fm with title := unquote val } none
          else go ls fm none
  go lines {} none

/-- Properties drawer text built by `extractYAMLFromLines`. -/
def buildPropsDrawer (fm : FrontMatter) : Str :=
  let props :=
    (if fm.id ≠ [] ∨ fm.aliases ≠ [] ∨ fm.refs ≠ [] then
      strOf ":PROPERTIES:\n" ++
      (if fm.id ≠ [] then strOf ":ID: " ++ fm.id ++ strOf "\n" else []) ++
      (if fm.aliases ≠ [] then
        strOf ":ROAM_ALIASES: " ++
          joinWith (strOf " ") (fm.aliases.map (fun a => strOf "\"" ++ a ++ strOf "\"")) ++
          strOf "\n"
       else []) ++
      (if fm.refs ≠ [] then
        strOf ":ROAM_REFS: " ++ joinWith (strOf " ") fm.refs ++ strOf "\n"
       else []) ++
      strOf ":END:\n"
     else []) ++
    (if fm.title ≠ [] then strOf "#+title: " ++ fm.title ++ strOf "\n" else []) ++
    (if fm.tags ≠ [] then
      strOf "#+filetags: :" ++ joinWith (strOf ":") fm.tags ++ strOf ":\n"
     else [])
  if props ≠ [] then props ++ strOf "\n" else []

/-- First index `i ≥ 1` with `trimSpace lines[i] = "---"` (front matter end
search in `extractYAMLFromLines`). -/
def findFrontMatterEnd (lines : List Str) : Option Nat :=
  let rec go : List Str → Nat → Option Nat
    | [], _ => none
    | l :: ls, i => if trimSpace l = strOf "---" then some i else go ls (i + 1)
  match lines with
  | [] => none
  | _ :: rest => go rest 1

/-- `extractYAMLFromLines` from `convert/md_to_org.go`: returns the
properties drawer text and the body lines. -/
def extractYAMLFromLines (lines : List Str) : Str × List Str :=
  match lines with
  | [] => ([], lines)
  | first :: _ =>
    if trimSpace first ≠ strOf "---" then ([], lines)
    else
      match findFrontMatterEnd lines with
      | none => ([], lines)
      | some fmEnd =>
        match parseYamlSubset ((lines.take fmEnd).drop 1) with
        | none => ([], lines)
        | some fm =>
          let body := (lines.drop (fmEnd + 1)).dropWhile (fun l => trimSpace l = [])
          (buildPropsDrawer fm, body)

/-! ### OrgToMarkdown -/

/-- The `validCallouts` set literal inside `OrgToMarkdown`. -/
def validCallouts : List Str :=
  ["note", "abstract", "summary", "tldr",
   "info", "todo", "tip", "hint", "important",
   "success", "check", "done",
   "question", "help", "faq",
   "warning", "caution", "attention",
   "failure", "fail", "missing",
   "danger", "error", "bug",
   "example"].map strOf

/-- The look-ahead in `OrgToMarkdown`'s task branch: consecutive
SCHEDULED/DEADLINE/CLOSED lines after a task heading become emoji-marked
date lines, in the order encountered. -/
def orgTaskMetaMd : List Str → Str
  | [] => []
  | l :: ls =>
    let nl := trimSpace l
    if startsWith nl (strOf "SCHEDULED:") then
      strOf "⏳ " ++ extractOrgDate nl ++ strOf "\n" ++ orgTaskMetaMd ls
    else if startsWith nl (strOf "DEADLINE:") then
      strOf "📅 " ++ extractOrgDate nl ++ strOf "\n" ++ orgTaskMetaMd ls
    else if startsWith nl (strOf "CLOSED:") then
      strOf "✅ " ++ extractOrgDate nl ++ strOf "\n" ++ orgTaskMetaMd ls
    else []

/-- The heading branch of `OrgToMarkdown` (trimmed line starts with `*`):
output text for this line, given the remaining lines for the task metadata
look-ahead. -/
def o2mHeading (t : Str) (rest : List Str) : Str :=
  let stars := countLeadingChars t '*'
  let rest0 := trimSpace (t.drop stars)
  let todoF := startsWith rest0 (strOf "TODO ")
  let doneF := ¬ todoF ∧ startsWith rest0 (strOf "DONE ")
  let rest1 := if todoF ∨ doneF then trimSpace (rest0.drop 5) else rest0
  -- priority: `[#` prefix with `]` as the fourth character (source indexes
  -- bytes; the model indexes characters, which agrees on ASCII codes)
  let prio : Str :=
    if startsWith rest1 (strOf "[#") ∧ rest1.length ≥ 4 ∧ rest1.get? 3 = some ']' then
      match rest1.get? 2 with
      | some p => [p]
      | none => []
    else []
  let rest2 := if prio ≠ [] then trimSpace (rest1.drop 4) else rest1
  let hashes := repC stars '#'
  if todoF ∨ doneF then
    let checkbox := if doneF then strOf "[x]" else strOf "[ ]"
    let prioLine :=
      if prio ≠ [] then
        let level :=
          if prio = strOf "A" then strOf "high"
          else if prio = strOf "C" then strOf "low"
          else strOf "medium"
        strOf "Priority: " ++ level ++ strOf "\n"
      else []
    hashes ++ strOf " - " ++ checkbox ++ strOf " " ++ rest2 ++ strOf "\n" ++
      orgTaskMetaMd rest ++ prioLine
  else
    hashes ++ strOf " " ++ rest2 ++ strOf "\n"

/-- Loop state of `OrgToMarkdown`'s main line loop. -/
structure O2MSt where
  inCode : Bool := false
  inQuote : Bool := false
  inSpec : Bool := false
  specTy : Str := []
deriving DecidableEq, Repr

/-- One iteration of `OrgToMarkdown`'s main line loop: the text written for
`line` and the next loop state.  `rest` is only consulted by the task
branch's look-ahead. -/
def o2mStep (idMap : List (Str × Str)) (line : Str) (rest : List Str)
    (st : O2MSt) : Str × O2MSt :=
  let t := trimSpace line
  if startsWith t (strOf "#+BEGIN_SRC") then
    let lang := match fields t with | _ :: l :: _ => l | _ => []
    (strOf "```" ++ lang ++ strOf "\n", { st with inCode := true })
  else if startsWith t (strOf "#+END_SRC") then
    (strOf "```" ++ strOf "\n", { st with inCode := false })
  else if st.inCode then
    (line ++ strOf "\n", st)
  else if startsWith t (strOf "#+BEGIN_QUOTE") then
    ([], { st with inQuote := true })
  else if startsWith t (strOf "#+END_QUOTE") then
    ([], { st with inQuote := false })
  else if st.inQuote then
    (strOf "> " ++ t ++ strOf "\n", st)
  else if startsWith t (strOf "#+BEGIN_") ∧
      validCallouts.contains (toLowerStr (trimPref t (strOf "#+BEGIN_"))) then
    let bt := toLowerStr (trimPref t (strOf "#+BEGIN_"))
    (strOf "> [!" ++ bt ++ strOf "]\n", { st with inSpec := true, specTy := bt })
  else if startsWith t (strOf "#+END_") ∧
      toLowerStr (trimPref t (strOf "#+END_")) = st.specTy then
    (strOf "\n", { st with inSpec := false, specTy := [] })
  else if st.inSpec then
    (strOf "> " ++ t ++ strOf "\n", st)
  else if startsWith t (strOf "#+title:") ∨ startsWith t (strOf "#+filetags:") then
    ([], st)
  else if startsWith t (strOf "SCHEDULED:") ∨ startsWith t (strOf "DEADLINE:") ∨
      startsWith t (strOf "CLOSED:") then
    ([], st)
  else if startsWith t (strOf "*") ∧ countLeadingChars t '*' > 0 then
    (o2mHeading t rest, st)
  else
    (convertOrgLinks (convertOrgEmbeds line) idMap ++ strOf "\n", st)

/-- The main line loop of `OrgToMarkdown`. -/
def o2mGo (idMap : List (Str × Str)) : List Str → O2MSt → Str
  | [], _ => []
  | line :: rest, st =>
    let (out, st2) := o2mStep idMap line rest st
    out ++ o2mGo idMap rest st2

/-- `OrgToMarkdown` from `convert/org_to_md.go` (the Go function always
returns a nil error, so the embedding returns the text directly). -/
def OrgToMarkdown (orgContent : Str) (idMap : List (Str × Str)) : Str :=
  let (fm, body) := extractOrgPropertiesFromLines (splitLines orgContent)
  let header :=
    if fm ≠ [] then strOf "---\n" ++ fm ++ strOf "---\n\n" else []
  trimSpace (header ++ o2mGo idMap body {})

/-! ### MarkdownToOrg -/

/-- Task metadata collected by the look-ahead in `MarkdownToOrg`'s task
branch (later matching lines overwrite earlier values, as the source's
variable assignments do; `priority` is only assigned for the three known
levels). -/
structure TaskMeta where
  scheduled : Str := []
  deadline : Str := []
  closed : Str := []
  priority : Str := []
deriving Repr, DecidableEq

/-- The look-ahead of `MarkdownToOrg`'s task branch over the following
lines. -/
def mdTaskMeta : List Str → TaskMeta → TaskMeta
  | [], acc => acc
  | l :: ls, acc =>
    let nl := trimSpace l
    if startsWith nl (strOf "⏳ ") then
      mdTaskMeta ls { acc with scheduled := trimSpace (trimPref nl (strOf "⏳")) }
    else if startsWith nl (strOf "📅 ") then
      mdTaskMeta ls { acc with deadline := trimSpace (trimPref nl (strOf "📅")) }
    else if startsWith nl (strOf "✅ ") then
      mdTaskMeta ls { acc with closed := trimSpace (trimPref nl (strOf "✅")) }
    else if startsWith nl (strOf "Priority: ") then
      let level := trimSpace (trimPref nl (strOf "Priority:"))
      let p :=
        if level = strOf "high" then strOf "A"
        else if level = strOf "medium" then strOf "B"
        else if level = strOf "low" then strOf "C"
        else acc.priority
      mdTaskMeta ls { acc with priority := p }
    else acc

/-- The header branch of `MarkdownToOrg` (trimmed line starts with `#`). -/
def m2oHeading (t : Str) (rest : List Str) : Str :=
  let hashes := countLeadingChars t '#'
  let rest0 := trimSpace (t.drop hashes)
  let openT := startsWith rest0 (strOf "- [ ] ")
  let doneT := ¬ openT ∧ startsWith rest0 (strOf "- [x] ")
  let stars := repC hashes '*'
  if openT ∨ doneT then
    let taskContent := trimSpace (rest0.drop 6)
    let status := if doneT then strOf "DONE" else strOf "TODO"
    let m := mdTaskMeta rest {}
    stars ++ strOf " " ++ status ++ strOf " " ++
      (if m.priority ≠ [] then strOf "[#" ++ m.priority ++ strOf "] " else []) ++
      taskContent ++ strOf "\n" ++
      (if m.scheduled ≠ [] then strOf "SCHEDULED: <" ++ m.scheduled ++ strOf ">\n" else []) ++
      (if m.deadline ≠ [] then strOf "DEADLINE: <" ++ m.deadline ++ strOf ">\n" else []) ++
      (if m.closed ≠ [] then strOf "CLOSED: [" ++ m.closed ++ strOf "]\n" else [])
  else
    stars ++ strOf " " ++ rest0 ++ strOf "\n"

/-- Loop state of `MarkdownToOrg`'s main line loop (ID-generator counter
included). -/
structure M2OSt where
  inCode : Bool := false
  inQuote : Bool := false
  inCallout : Bool := false
  calloutTy : Str := []
  n : Nat := 0
deriving DecidableEq, Repr

/-- One iteration of `MarkdownToOrg`'s main line loop: the text written for
`line` and the next loop state.  `rest` is consulted by the task look-ahead
and by the quote/callout closing check on the following line. -/
def m2oStep (gen : Nat → Str) (idMap : List (Str × Str)) (line : Str)
    (rest : List Str) (st : M2OSt) : Str × M2OSt :=
  let t := trimSpace line
  if startsWith t (strOf "⏳ ") ∨ startsWith t (strOf "📅 ") ∨
      startsWith t (strOf "✅ ") ∨ startsWith t (strOf "Priority: ") then
    ([], st)
  else if startsWith t (strOf "```") then
    if ¬ st.inCode then
      let lang := trimSpace (trimPref t (strOf "```"))
      (strOf "#+BEGIN_SRC " ++ lang ++ strOf "\n", { st with inCode := true })
    else
      (strOf "#+END_SRC\n", { st with inCode := false })
  else if st.inCode then
    (line ++ strOf "\n", st)
  else if startsWith t (strOf ">") then
    let qc := trimSpace (trimPref t (strOf ">"))
    let calloutStart : Bool :=
      startsWith qc (strOf "[!") &&
        match indexOfSub qc (strOf "]") with
        | some endIdx => decide (endIdx > 0)
        | none => false
    if calloutStart then
      let endIdx := (indexOfSub qc (strOf "]")).getD 0
      let cty := toUpperStr ((qc.drop 2).take (endIdx - 2))
      let remaining := trimSpace (qc.drop (endIdx + 1))
      (strOf "#+BEGIN_" ++ cty ++ strOf "\n" ++
        (if remaining ≠ [] then remaining ++ strOf "\n" else []),
       { st with inCallout := true, calloutTy := cty })
    else
      -- whether the next line still belongs to the quote/callout
      let nextIsQuote :=
        match rest with
        | [] => false
        | next :: _ => startsWith (trimSpace next) (strOf ">")
      if st.inCallout then
        if nextIsQuote then (qc ++ strOf "\n", st)
        else
          (qc ++ strOf "\n" ++ strOf "#+END_" ++ st.calloutTy ++ strOf "\n",
           { st with inCallout := false, calloutTy := [] })
      else
        let openQ := if ¬ st.inQuote then strOf "#+BEGIN_QUOTE\n" else []
        if nextIsQuote then (openQ ++ qc ++ strOf "\n", { st with inQuote := true })
        else
          (openQ ++ qc ++ strOf "\n" ++ strOf "#+END_QUOTE\n",
           { st with inQuote := false })
  else if startsWith t (strOf "#") ∧ countLeadingChars t '#' > 0 then
    (m2oHeading t rest, st)
  else
    let r := convertMarkdownLinks gen (convertMarkdownEmbeds line) idMap st.n
    (r.1 ++ strOf "\n", { st with n := r.2 })

/-- The main line loop of `MarkdownToOrg`. -/
def m2oGo (gen : Nat → Str) (idMap : List (Str × Str)) : List Str → M2OSt → Str
  | [], _ => []
  | line :: rest, st =>
    let (out, st2) := m2oStep gen idMap line rest st
    out ++ m2oGo gen idMap rest st2

/-- `MarkdownToOrg` from `convert/md_to_org.go` (the Go function always
returns a nil error; `uuid.New()` is modelled by the injected generator). -/
def MarkdownToOrg (gen : Nat → Str) (mdContent : Str) (idMap : List (Str × Str)) : Str :=
  let (props, body) := extractYAMLFromLines (splitLines mdContent)
  trimSpace (props ++ m2oGo gen idMap body {})

inductive Errno
  | enoent   -- file does not exist
  | eacces   -- permission denied
  | eagain   -- resource temporarily unavailable
  | eio      -- input/output error
deriving DecidableEq, Repr

inductive GoErr
  | pathErr (op path : Str) (errno : Errno)
  | str (msg : Str)
  | wrap (msg : Str) (inner : GoErr)
deriving DecidableEq, Repr

/-- `errors.As(err, &pathErr)`: whether a `*fs.PathError` occurs in the
unwrap chain. -/
def isPathError : GoErr → Bool
  | .pathErr .. => true
  | .str _ => false
  | .wrap _ inner => isPathError inner

/-- The errno at the bottom of the unwrap chain, if the chain bottoms out in
a `*fs.PathError`. -/
def errnoOf : GoErr → Option Errno
  | .pathErr _ _ e => some e
  | .str _ => none
  | .wrap _ inner => errnoOf inner

/-- `os.IsNotExist` on a nillable error. -/
def isNotExist : Option GoErr → Bool
  | none => false
  | some e => errnoOf e = some .enoent

/-- `isRetryable` from `internal/sync/sync.go`: true exactly when the error
is (or wraps) a `*fs.PathError`. -/
def isRetryable : Option GoErr → Bool
  | none => false
  | some e => isPathError e

/-- Loop body of `withRetry` from `internal/sync/sync.go`.  The side-effecting
closure is modelled as a function of the attempt index; the second result
component counts the attempts made (closure invocations).  `remaining` is the
number of retries still allowed. -/
def withRetryGo (fn : Nat → Option GoErr) : Nat → Nat → Option GoErr × Nat
  | remaining, i =>
    match fn i with
    | none => (none, i + 1)
    | some e =>
      if ¬ isRetryable (some e) then (some e, i + 1)
      else
        match remaining with
        | 0 => (some (.wrap (strOf "failed after retries") e), i + 1)
        | r + 1 => withRetryGo fn r (i + 1)

/-- `withRetry maxRetries delay fn` (the fixed sleep between attempts has no
observable effect in the model). -/
def withRetry (maxRetries : Nat) (fn : Nat → Option GoErr) : Option GoErr × Nat :=
  withRetryGo fn maxRetries 0

/-! ### State (internal/state/state.go) and a model filesystem -/

/-- `FileState` from `internal/state/state.go`. -/
structure FileState where
  mtime : Int
  hash : Str
  pairedWith : Str
deriving DecidableEq, Repr

/-- `State` from `internal/state/state.go` (both Go maps modelled as
association lists). -/
structure State where
  files : List (Str × FileState) := []
  idMap : List (Str × Str) := []
deriving DecidableEq, Repr

/-- Content and fault flags of one file in the model filesystem. -/
structure FileInfo where
  mtime : Int
  content : Str
  readFails : Bool := false   -- opening/reading this file errors (e.g. EIO)
deriving DecidableEq, Repr

/-- Model filesystem: existing files plus the set of paths on which creating
or writing files errors, plus a clock supplying fresh modification times. -/
structure FS where
  files : List (Str × FileInfo) := []
  badWritePaths : List Str := []
  clock : Int := 0
deriving DecidableEq, Repr

/-- `os.Stat`: modification time of an existing file. -/
def statFS (fs : FS) (path : Str) : Option Int :=
  (fs.files.lookup path).map (·.mtime)

/-- `os.ReadFile` with Go's two-value return: content and error. -/
def readFile (fs : FS) (path : Str) : Str × Option GoErr :=
  match fs.files.lookup path with
  | none => ([], some (.pathErr (strOf "open") path .enoent))
  | some fi =>
    if fi.readFails then ([], some (.pathErr (strOf "read") path .eio))
    else (fi.content, none)

/-- Replace or insert an association-list entry. -/
def setAssoc {α : Type} [DecidableEq Str] (l : List (Str × α)) (k : Str) (v : α) :
    List (Str × α) :=
  (k, v) :: l.filter (fun p => p.1 ≠ k)

/-- `atomicWriteFile` from `internal/sync/sync.go` in the model: on a bad
path the write fails and the destination is untouched (the source writes a
temp file and renames, so a failure never alters the destination); otherwise
the destination atomically receives the new content and a fresh
modification time. -/
def atomicWriteFile (fs : FS) (path : Str) (content : Str) : Option GoErr × FS :=
  if fs.badWritePaths.contains path then
    (some (.pathErr (strOf "write") path .eacces), fs)
  else
    (none,
     { fs with
        files := setAssoc fs.files path
          { mtime := fs.clock, content := content, readFails := false },
        clock := fs.clock + 1 })

/-- `ComputeHash` from `internal/state/state.go`, parameterised by the digest
function (SHA-256 in the source); Go-style two-value return. -/
def ComputeHash (hash : Str → Str) (fs : FS) (path : Str) : Str × Option GoErr :=
  match fs.files.lookup path with
  | none => ([], some (.pathErr (strOf "open") path .enoent))
  | some fi =>
    if fi.readFails then ([], some (.pathErr (strOf "read") path .eio))
    else (hash fi.content, none)

/-- `HasChanged` from `internal/state/state.go`: hybrid mtime-then-hash
change detection; Go-style two-value return `(changed, err)`. -/
def HasChanged (hash : Str → Str) (st : State) (fs : FS) (path : Str) :
    Bool × Option GoErr :=
  match fs.files.lookup path with
  | none => (false, some (.pathErr (strOf "stat") path .enoent))
  | some fi =>
    match st.files.lookup path with
    | none => (true, none)
    | some rec0 =>
      if fi.mtime = rec0.mtime then (false, none)
      else
        let (h, err) := ComputeHash hash fs path
        match err with
        | some e => (false, some e)
        | none => (decide (h ≠ rec0.hash), none)

/-- `Update` from `internal/state/state.go`: re-stat and re-hash `path` and
overwrite its tracked entry. -/
def StateUpdate (hash : Str → Str) (st : State) (fs : FS) (path pairedWith : Str) :
    State × Option GoErr :=
  match fs.files.lookup path with
  | none => (st, some (.pathErr (strOf "stat") path .enoent))
  | some fi =>
    if fi.readFails then (st, some (.pathErr (strOf "read") path .eio))
    else
      ({ st with
          files := setAssoc st.files path
            { mtime := fi.mtime, hash := hash fi.content, pairedWith := pairedWith } },
       none)

/-! ### Conflict resolution and the sync pass (internal/sync/sync.go) -/

/-- `ConflictDecision` from `internal/sync/sync.go`. -/
structure ConflictDecision where
  winner : Str
  reason : Str
  orgChanged : Bool
  mdChanged : Bool
deriving DecidableEq, Repr

/-- `ResolveConflict` from `internal/sync/sync.go`; `policy` is the
configured `ResolutionStrategy` string; `none` models a returned error. -/
def ResolveConflict (hash : Str → Str) (policy : Str) (st : State) (fs : FS)
    (orgPath mdPath : Str) : Option ConflictDecision :=
  let (orgChanged, errO) := HasChanged hash st fs orgPath
  if errO.isSome ∧ ¬ isNotExist errO then none
  else
    let orgExists := ¬ isNotExist errO
    let (mdChanged, errM) := HasChanged hash st fs mdPath
    if errM.isSome ∧ ¬ isNotExist errM then none
    else
      let mdExists := ¬ isNotExist errM
      if ¬ orgExists ∧ ¬ mdExists then
        some ⟨strOf "none", strOf "neither file exists", orgChanged, mdChanged⟩
      else if orgExists ∧ ¬ mdExists then
        some ⟨strOf "org", strOf "md file doesn't exist", orgChanged, mdChanged⟩
      else if ¬ orgExists ∧ mdExists then
        some ⟨strOf "obsidian", strOf "org file doesn't exist", orgChanged, mdChanged⟩
      else if ¬ orgChanged ∧ ¬ mdChanged then
        some ⟨strOf "none", strOf "no changes detected", orgChanged, mdChanged⟩
      else if orgChanged ∧ ¬ mdChanged then
        some ⟨strOf "org", strOf "only org file changed", orgChanged, mdChanged⟩
      else if ¬ orgChanged ∧ mdChanged then
        some ⟨strOf "obsidian", strOf "only md file changed", orgChanged, mdChanged⟩
      else
        if policy = strOf "use-org" then
          some ⟨strOf "org", strOf "both changed, using org (configured strategy)",
            orgChanged, mdChanged⟩
        else if policy = strOf "use-markdown" then
          some ⟨strOf "obsidian", strOf "both changed, using markdown (configured strategy)",
            orgChanged, mdChanged⟩
        else
          -- "last-write-wins" and any other value fall through to the default
          match statFS fs orgPath, statFS fs mdPath with
          | some orgM, some mdM =>
            if orgM > mdM then
              some ⟨strOf "org", strOf "both changed, org is newer (last-write-wins)",
                orgChanged, mdChanged⟩
            else
              some ⟨strOf "obsidian", strOf "both changed, obsidian is newer (last-write-wins)",
                orgChanged, mdChanged⟩
          | _, _ => none

/-- `convertOrgToMd` from `internal/sync/sync.go`: read the org file (with
retry), convert, atomically write the markdown file (with retry).  The
model's read and write outcomes do not vary between attempts, so the
retried closure is constant. -/
def convertOrgToMdS (st : State) (fs : FS) (orgPath mdPath : Str) :
    Option GoErr × FS :=
  let (content, rerr0) := readFile fs orgPath
  let (rerr, _) := withRetry 2 (fun _ => rerr0)
  match rerr with
  | some e => (some (.wrap (strOf "file access error: reading " ++ orgPath) e), fs)
  | none =>
    let md := OrgToMarkdown content st.idMap
    let (werr0, fs2) := atomicWriteFile fs mdPath md
    let (werr, _) := withRetry 2 (fun _ => werr0)
    match werr with
    | some e => (some (.wrap (strOf "file access error: writing " ++ mdPath) e), fs)
    | none => (none, fs2)

/-- `convertMdToOrg` from `internal/sync/sync.go`. -/
def convertMdToOrgS (gen : Nat → Str) (st : State) (fs : FS) (mdPath orgPath : Str) :
    Option GoErr × FS :=
  let (content, rerr0) := readFile fs mdPath
  let (rerr, _) := withRetry 2 (fun _ => rerr0)
  match rerr with
  | some e => (some (.wrap (strOf "file access error: reading " ++ mdPath) e), fs)
  | none =>
    let org := MarkdownToOrg gen content st.idMap
    let (werr0, fs2) := atomicWriteFile fs orgPath org
    let (werr, _) := withRetry 2 (fun _ => werr0)
    match werr with
    | some e => (some (.wrap (strOf "file access error: writing " ++ orgPath) e), fs)
    | none => (none, fs2)

/-- `SyncFilePair` from `internal/sync/sync.go`: resolve, convert toward the
loser, then update tracked state for both paths.  Returns
`((synced, err), state, fs)`. -/
def SyncFilePair (gen : Nat → Str) (hash : Str → Str) (policy : Str)
    (st : State) (fs : FS) (orgPath mdPath : Str) :
    (Bool × Option GoErr) × State × FS :=
  match ResolveConflict hash policy st fs orgPath mdPath with
  | none => ((false, some (.str (strOf "conflict resolution failed"))), st, fs)
  | some decision =>
    if decision.winner = strOf "none" then ((false, none), st, fs)
    else
      let conv :=
        if decision.winner = strOf "org" then
          let r := convertOrgToMdS st fs orgPath mdPath
          (r.1.map (.wrap (strOf "failed to convert org to md")), r.2)
        else if decision.winner = strOf "obsidian" then
          let r := convertMdToOrgS gen st fs mdPath orgPath
          (r.1.map (.wrap (strOf "failed to convert md to org")), r.2)
        else (none, fs)
      match conv.1 with
      | some e => ((false, some e), st, fs)
      | none =>
        let fs2 := conv.2
        match StateUpdate hash st fs2 orgPath mdPath with
        | (_, some e) => ((false, some (.wrap (strOf "failed to update org state") e)), st, fs2)
        | (st1, none) =>
          match StateUpdate hash st1 fs2 mdPath orgPath with
          | (st1, some e) =>
            ((false, some (.wrap (strOf "failed to update md state") e)), st1, fs2)
          | (st2, none) => ((true, none), st2, fs2)

/-- Accumulated outcome of a sync pass (`SyncResult` plus the evolving state
and filesystem). -/
structure SyncAcc where
  filesProcessed : Nat := 0
  errors : List GoErr := []
  st : State := {}
  fs : FS := {}
deriving Repr

/-- One iteration of `Sync`'s per-pair loop: on error, wrap with the pair's
relative path, record, and continue; on success, count it if a sync
occurred. -/
def syncStep (gen : Nat → Str) (hash : Str → Str) (policy : Str)
    (acc : SyncAcc) (pair : Str × Str × Str) : SyncAcc :=
  let (relPath, orgPath, mdPath) := pair
  let r := SyncFilePair gen hash policy acc.st acc.fs orgPath mdPath
  match r.1.2 with
  | some e =>
    -- the state object and filesystem are shared, so whatever the failed
    -- pair did to them persists into the next iteration
    { acc with
        errors := acc.errors ++ [.wrap (strOf "sync failed for " ++ relPath) e],
        st := r.2.1, fs := r.2.2 }
  | none =>
    { acc with
        filesProcessed := acc.filesProcessed + (if r.1.1 then 1 else 0),
        st := r.2.1, fs := r.2.2 }

/-- The per-pair loop of `Sync` from `internal/sync/sync.go`, over the
already-scanned list of `(relativePath, orgPath, mdPath)` pairs. -/
def syncPairs (gen : Nat → Str) (hash : Str → Str) (policy : Str)
    (pairs : List (Str × Str × Str)) (acc : SyncAcc) : SyncAcc :=
  pairs.foldl (syncStep gen hash policy) acc

/-! ### A structured document class for the round-trip theorems

`Blk` describes org documents built from the constructs both converters
handle structurally; `blkOrg`/`blkMd` render one block to its org-dialect and
markdown-dialect lines.  The well-formedness predicates below carve out the
fragment on which the org → markdown → org round trip is exact. -/

/-- A `\d{4}-\d{2}-\d{2}` date given by its eight digits. -/
structure DateD where
  y1 : Char
  y2 : Char
  y3 : Char
  y4 : Char
  m1 : Char
  m2 : Char
  d1 : Char
  d2 : Char
deriving DecidableEq, Repr

def dateStr (d : DateD) : Str :=
  [d.y1, d.y2, d.y3, d.y4, '-', d.m1, d.m2, '-', d.d1, d.d2]

def wfDateD (d : DateD) : Bool :=
  d.y1.isDigit && d.y2.isDigit && d.y3.isDigit && d.y4.isDigit &&
  d.m1.isDigit && d.m2.isDigit && d.d1.isDigit && d.d2.isDigit

/-- The ten characters have the `\d{4}-\d{2}-\d{2}` shape. -/
def isDateShape (d : Str) : Bool := matchDateShape d = some d

/-- Heading/task content: trimmed, nonempty, newline-free. -/
def wfContent (c : Str) : Bool :=
  ¬ c.contains '\n' && trimLeft c = c && trimRight c = c && c ≠ []

/-- A concrete ID generator used by witnesses and counterexamples (a stand-in
for `uuid.New()`). -/
def gen0 : Nat → Str := fun _ => strOf "00000000-0000-0000-0000-000000000000"

/-- A concrete injective ID generator for the fresh-identifier scenarios. -/
def genSeq : Nat → Str := fun k => 'u' :: List.replicate k 'x'

/-- The conflict-resolution decision table exactly as §4.3 of the
specification words it (the refinement reference for the `ResolveConflict`
claims): seven cases in precedence order; under "both changed" the policy
decides, last-write-wins giving the side with the strictly later
modification time (`none` where the table does not prescribe a winner). -/
def specWinner (oex mex och mch : Bool) (policy : Str)
    (orgM mdM : Option Int) : Option Str :=
  if !oex && !mex then some (strOf "none")
  else if oex && !mex then some (strOf "org")
  else if !oex && mex then some (strOf "obsidian")
  else if !och && !mch then some (strOf "none")
  else if och && !mch then some (strOf "org")
  else if !och && mch then some (strOf "obsidian")
  else if policy = strOf "use-org" then some (strOf "org")
  else if policy = strOf "use-markdown" then some (strOf "obsidian")
  else
    match orgM, mdM with
    | some a, some b =>
      if a > b then some (strOf "org")
      else if b > a then some (strOf "obsidian")
      else none
    | _, _ => none

/-- Stop condition for the org task-metadata look-ahead: the next line (if
any) is not a SCHEDULED/DEADLINE/CLOSED line. -/
def orgMetaStops (rest : List Str) : Bool :=
  match rest with
  | [] => true
  | l :: _ =>
    ¬ startsWith (trimSpace l) (strOf "SCHEDULED:") &&
    ¬ startsWith (trimSpace l) (strOf "DEADLINE:") &&
    ¬ startsWith (trimSpace l) (strOf "CLOSED:")

/-- Tracked sync state with one recorded file, for the change-detection
witness. -/
def wSt : State :=
  { files := [(strOf "a", { mtime := 1, hash := strOf "x", pairedWith := strOf "b" })] }

/-- Filesystem matching `wSt`: the file exists with the recorded mtime and
content. -/
def wFs : FS :=
  { files := [(strOf "a", { mtime := 1, content := strOf "x", readFails := false })] }

/-- Tracked sync state for the failing-pair witness: `a.org` was recorded at
mtime 1. -/
def wErrSt : State :=
  { files := [(strOf "a.org", { mtime := 1, hash := [], pairedWith := strOf "a.md" })] }

/-- Filesystem for the failing-pair witness: `a.org` was touched (mtime 2)
and now errors on read, so conflict resolution fails for the pair. -/
def wErrFs : FS :=
  { files := [(strOf "a.org", { mtime := 2, content := [], readFails := true })] }

/-! ## Theorems -/

/-! ### Basic string lemmas -/

theorem startsWith_nil_left (p : Str) (c : Char) : startsWith [] (c :: p) = false := rfl

theorem startsWith_cons_same (a : Char) (s p : Str) :
    startsWith (a :: s) (a :: p) = startsWith s p := by
  simp [startsWith, List.isPrefixOf]

theorem startsWith_cons_ne {a b : Char} (h : b ≠ a) (s p : Str) :
    startsWith (a :: s) (b :: p) = false := by
  simp [startsWith, List.isPrefixOf, h]

theorem startsWith_append_left {a : Str} (b : Str) {p : Str}
    (h : p.length ≤ a.length) : startsWith (a ++ b) p = startsWith a p := by
  induction p generalizing a with
  | nil => simp [startsWith, List.isPrefixOf]
  | cons x q ih =>
    cases a with
    | nil => simp at h
    | cons y t =>
      by_cases hxy : x = y
      · subst hxy
        simp only [List.cons_append, startsWith_cons_same]
        exact ih (Nat.le_of_succ_le_succ h)
      · simp only [List.cons_append, startsWith_cons_ne (fun hh => hxy hh)]

theorem trimLeft_cons_nonspace {c : Char} (h : isSpaceChar c = false) (s : Str) :
    trimLeft (c :: s) = c :: s := by
  simp [trimLeft, List.dropWhile_cons, h]

theorem trimSpace_of_fix {s : Str} (hl : trimLeft s = s) (hr : trimRight s = s) :
    trimSpace s = s := by
  unfold trimSpace
  rw [hl, hr]

theorem trimRight_of_all_nonspace {s : Str} (h : s.all (fun c => ¬ isSpaceChar c) = true) :
    trimRight s = s := by
  unfold trimRight
  cases hr : s.reverse with
  | nil =>
    have hs : s = [] := by simpa using congrArg List.reverse hr
    simp [hs]
  | cons x t =>
    have hx : x ∈ s := by
      have : x ∈ s.reverse := by rw [hr]; exact List.mem_cons_self x t
      simpa using this
    have hxna := List.all_eq_true.mp h x hx
    have hxs : isSpaceChar x = false := by
      cases hb : isSpaceChar x
      · rfl
      · exact absurd hb (by simpa using hxna)
    rw [List.dropWhile_cons, hxs]
    simp [← hr]

theorem head?_repC_append (n : Nat) (c : Char) (r : Str) :
    (repC (n + 1) c ++ r).head? = some c := by
  simp [repC, List.replicate]

/-! ### fields -/

theorem fieldsGo_chunk : ∀ (w : Str), w.all (fun c => ¬ isSpaceChar c) = true →
    ∀ (rest : Str) (acc : Str),
    fields.go (w ++ rest) acc = fields.go rest (w.reverse ++ acc) := by
  intro w
  induction w with
  | nil => intro _ rest acc; simp
  | cons c t ih =>
    intro h rest acc
    simp only [List.all_cons, Bool.and_eq_true, decide_eq_true_eq] at h
    have hc : isSpaceChar c = false := by
      cases hb : isSpaceChar c
      · rfl
      · exact absurd hb h.1
    rw [List.cons_append, fields.go]
    simp only [hc, Bool.false_eq_true, if_false]
    rw [ih h.2 rest (c :: acc)]
    simp

theorem fieldsGo_nil_nonempty (acc : Str) (h : acc ≠ []) :
    fields.go [] acc = [acc.reverse] := by
  rw [fields.go]
  simp [List.isEmpty_iff, h]

theorem fields_single {w : Str} (hw : w.all (fun c => ¬ isSpaceChar c) = true)
    (hne : w ≠ []) : fields w = [w] := by
  unfold fields
  rw [show w = w ++ [] from by simp, fieldsGo_chunk w hw [] []]
  rw [List.append_nil, fieldsGo_nil_nonempty _ (by simpa using hne)]
  simp

theorem wfContent_parts {c : Str} (h : wfContent c = true) :
    c.contains '\n' = false ∧ trimLeft c = c ∧ trimRight c = c ∧ c ≠ [] := by
  simp only [wfContent, Bool.and_eq_true, decide_eq_true_eq, Bool.not_eq_true] at h
  exact ⟨h.1.1.1, h.1.1.2, h.1.2, h.2⟩

theorem wfContent_trim {c : Str} (h : wfContent c = true) : trimSpace c = c :=
  trimSpace_of_fix (wfContent_parts h).2.1 (wfContent_parts h).2.2.1

theorem isDigit_nonspace {c : Char} (h : c.isDigit = true) : isSpaceChar c = false := by
  cases hb : isSpaceChar c
  · rfl
  · exfalso
    have hs : c = ' ' ∨ c = '\t' ∨ c = '\n' ∨ c = Char.ofNat 11 ∨ c = Char.ofNat 12 ∨
        c = Char.ofNat 13 ∨ c = Char.ofNat 0x85 ∨ c = Char.ofNat 0xA0 := by
      simpa [isSpaceChar, or_assoc] using hb
    rcases hs with rfl | rfl | rfl | rfl | rfl | rfl | rfl | rfl <;>
      exact absurd h (by decide)

theorem wfDateD_parts {d : DateD} (h : wfDateD d = true) :
    d.y1.isDigit = true ∧ d.y2.isDigit = true ∧ d.y3.isDigit = true ∧
    d.y4.isDigit = true ∧ d.m1.isDigit = true ∧ d.m2.isDigit = true ∧
    d.d1.isDigit = true ∧ d.d2.isDigit = true := by
  simp only [wfDateD, Bool.and_eq_true] at h
  exact ⟨h.1.1.1.1.1.1.1, h.1.1.1.1.1.1.2, h.1.1.1.1.1.2, h.1.1.1.1.2,
    h.1.1.1.2, h.1.1.2, h.1.2, h.2⟩

theorem dateStr_trimRight {d : DateD} (h : wfDateD d = true) :
    trimRight (dateStr d) = dateStr d := by
  refine trimRight_of_all_nonspace ?_
  obtain ⟨h1, h2, h3, h4, h5, h6, h7, h8⟩ := wfDateD_parts h
  simp [dateStr, isDigit_nonspace h1, isDigit_nonspace h2, isDigit_nonspace h3,
    isDigit_nonspace h4, isDigit_nonspace h5, isDigit_nonspace h6,
    isDigit_nonspace h7, isDigit_nonspace h8,
    show isSpaceChar '-' = false from by decide]

theorem dateStr_trimLeft {d : DateD} (h : wfDateD d = true) :
    trimLeft (dateStr d) = dateStr d := by
  obtain ⟨h1, _⟩ := wfDateD_parts h
  exact trimLeft_cons_nonspace (isDigit_nonspace h1) _

theorem orgMetaStops_of_head {rest : List Str}
    (h : ∀ l₀, rest.head? = some l₀ →
      startsWith (trimSpace l₀) (strOf "SCHEDULED:") = false ∧
      startsWith (trimSpace l₀) (strOf "DEADLINE:") = false ∧
      startsWith (trimSpace l₀) (strOf "CLOSED:") = false) :
    orgMetaStops rest = true := by
  cases rest with
  | nil => rfl
  | cons l ls =>
    obtain ⟨h1, h2, h3⟩ := h l rfl
    simp [orgMetaStops, h1, h2, h3]

theorem lookup_setAssoc_eq {α : Type} (l : List (Str × α)) (k : Str) (v : α) :
    (setAssoc l k v).lookup k = some v := by
  simp [setAssoc, List.lookup]

theorem lookup_filter_ne {α : Type} (k k' : Str) (h : k' ≠ k) :
    ∀ (l : List (Str × α)),
    (l.filter (fun p => p.1 ≠ k)).lookup k' = l.lookup k' := by
  intro l
  induction l with
  | nil => rfl
  | cons a t ih =>
    cases a with
    | mk a1 a2 =>
      by_cases hak : a1 = k
      · subst hak
        have hbe : (k' == a1) = false := by simp [h]
        simp [List.filter_cons, List.lookup, hbe]
        simpa using ih
      · by_cases hka : k' = a1
        · subst hka
          simp [List.filter_cons, hak, List.lookup]
        · have hbe : (k' == a1) = false := by simp [hka]
          simp [List.filter_cons, hak, List.lookup, hbe]
          simpa using ih

theorem lookup_setAssoc_ne {α : Type} (l : List (Str × α)) (k : Str) (v : α)
    (k' : Str) (h : k' ≠ k) : (setAssoc l k v).lookup k' = l.lookup k' := by
  have hbe : (k' == k) = false := by simp [h]
  simp only [setAssoc, List.lookup, hbe]
  exact lookup_filter_ne k k' h l

set_option maxHeartbeats 2000000 in
theorem ResolveConflict_winner {hash : Str → Str} {policy : Str} {st : State}
    {fs : FS} {orgPath mdPath : Str} {dec : ConflictDecision}
    (h : ResolveConflict hash policy st fs orgPath mdPath = some dec) :
    dec.winner = strOf "none" ∨ dec.winner = strOf "org" ∨
      dec.winner = strOf "obsidian" := by
  unfold ResolveConflict at h
  try dsimp only at h
  generalize hO : HasChanged hash st fs orgPath = oR at h
  generalize hM : HasChanged hash st fs mdPath = mR at h
  obtain ⟨ochg, oerr⟩ := oR
  obtain ⟨mchg, merr⟩ := mR
  dsimp only at h
  by_cases h1 : oerr.isSome = true ∧ ¬ isNotExist oerr = true
  · rw [if_pos h1] at h; exact Option.noConfusion h
  · rw [if_neg h1] at h
    by_cases h2 : merr.isSome = true ∧ ¬ isNotExist merr = true
    · rw [if_pos h2] at h; exact Option.noConfusion h
    · rw [if_neg h2] at h
      by_cases h3 : ¬ ¬ isNotExist oerr = true ∧ ¬ ¬ isNotExist merr = true
      · rw [if_pos h3] at h; injection h with h9; rw [← h9]; left; rfl
      · rw [if_neg h3] at h
        by_cases h4 : ¬ isNotExist oerr = true ∧ ¬ ¬ isNotExist merr = true
        · rw [if_pos h4] at h; injection h with h9; rw [← h9]; right; left; rfl
        · rw [if_neg h4] at h
          by_cases h5 : ¬ ¬ isNotExist oerr = true ∧ ¬ isNotExist merr = true
          · rw [if_pos h5] at h; injection h with h9; rw [← h9]; right; right; rfl
          · rw [if_neg h5] at h
            by_cases h6 : ¬ ochg = true ∧ ¬ mchg = true
            · rw [if_pos h6] at h; injection h with h9; rw [← h9]; left; rfl
            · rw [if_neg h6] at h
              by_cases h7 : ochg = true ∧ ¬ mchg = true
              · rw [if_pos h7] at h; injection h with h9; rw [← h9]; right; left; rfl
              · rw [if_neg h7] at h
                by_cases h8 : ¬ ochg = true ∧ mchg = true
                · rw [if_pos h8] at h; injection h with h9; rw [← h9]; right; right; rfl
                · rw [if_neg h8] at h
                  by_cases hp1 : policy = strOf "use-org"
                  · rw [if_pos hp1] at h; injection h with h9; rw [← h9]; right; left; rfl
                  · rw [if_neg hp1] at h
                    by_cases hp2 : policy = strOf "use-markdown"
                    · rw [if_pos hp2] at h; injection h with h9; rw [← h9]; right; right; rfl
                    · rw [if_neg hp2] at h
                      cases hso : statFS fs orgPath with
                      | none => rw [hso] at h; cases hsm : statFS fs mdPath with
                        | none => rw [hsm] at h; exact Option.noConfusion h
                        | some mdM => rw [hsm] at h; exact Option.noConfusion h
                      | some orgM =>
                        rw [hso] at h
                        cases hsm : statFS fs mdPath with
                        | none => rw [hsm] at h; exact Option.noConfusion h
                        | some mdM =>
                          rw [hsm] at h
                          dsimp only at h
                          by_cases hgt : orgM > mdM
                          · rw [if_pos hgt] at h; injection h with h9; rw [← h9]; right; left; rfl
                          · rw [if_neg hgt] at h; injection h with h9; rw [← h9]; right; right; rfl

theorem HasChanged_shape (hash : Str → Str) (st : State) (fs : FS) (p : Str) :
    (statFS fs p = none ∧ HasChanged hash st fs p =
      (false, some (.pathErr (strOf "stat") p .enoent))) ∨
    ((statFS fs p).isSome = true ∧
      isNotExist (HasChanged hash st fs p).2 = false) := by
  unfold HasChanged statFS
  cases hlk : fs.files.lookup p with
  | none => exact Or.inl ⟨rfl, rfl⟩
  | some fi =>
    refine Or.inr ⟨rfl, ?_⟩
    cases hrec : st.files.lookup p with
    | none => rfl
    | some rec0 =>
      by_cases hmt : fi.mtime = rec0.mtime
      · simp [hmt, isNotExist]
      · simp only [if_neg hmt]
        unfold ComputeHash
        rw [hlk]
        cases hrf : fi.readFails with
        | true => simp [hrf, isNotExist, errnoOf]
        | false => simp [hrf, isNotExist]

theorem withRetry_const_none (fn : Nat → Option GoErr)
    (h : ∀ i, fn i = none) : withRetry 2 fn = (none, 1) := by
  unfold withRetry withRetryGo
  rw [h 0]

theorem withRetry_const_pathErr (op p : Str) (er : Errno) :
    withRetry 2 (fun _ => some (.pathErr op p er)) =
      (some (.wrap (strOf "failed after retries") (.pathErr op p er)), 3) := rfl

theorem SyncFilePair_err_st (gen : Nat → Str) (hash : Str → Str) (policy : Str)
    (st : State) (fs : FS) (orgPath mdPath : Str) (e : GoErr)
    (h : (SyncFilePair gen hash policy st fs orgPath mdPath).1.2 = some e) :
    (SyncFilePair gen hash policy st fs orgPath mdPath).2.1 = st := by
  unfold SyncFilePair at h ⊢
  cases hres : ResolveConflict hash policy st fs orgPath mdPath with
  | none => rfl
  | some dec =>
    rw [hres] at h
    dsimp only at h ⊢
    by_cases hnone : dec.winner = strOf "none"
    · rw [if_pos hnone]
    · rw [if_neg hnone] at h ⊢
      rcases ResolveConflict_winner hres with hw | hw | hw
      · exact absurd hw hnone
      · -- winner org
        rw [if_pos hw] at h ⊢
        cases hconv : convertOrgToMdS st fs orgPath mdPath with
        | mk cerr cfs =>
          cases cerr with
          | some ce => rfl
          | none =>
            -- the conversion succeeded: both state updates then succeed,
            -- contradicting the error hypothesis
            exfalso
            rw [hconv] at h
            dsimp only at h
            unfold convertOrgToMdS at hconv
            cases hlk : fs.files.lookup orgPath with
            | none =>
              rw [show readFile fs orgPath =
                ([], some (.pathErr (strOf "open") orgPath .enoent)) from by
                unfold readFile; rw [hlk]] at hconv
              dsimp only at hconv
              rw [withRetry_const_pathErr] at hconv
              exact Option.noConfusion (congrArg Prod.fst hconv)
            | some fi =>
              cases hrf : fi.readFails with
              | true =>
                rw [show readFile fs orgPath =
                  ([], some (.pathErr (strOf "read") orgPath .eio)) from by
                  unfold readFile; rw [hlk]; dsimp only; rw [hrf]; rfl] at hconv
                dsimp only at hconv
                rw [withRetry_const_pathErr] at hconv
                exact Option.noConfusion (congrArg Prod.fst hconv)
              | false =>
                rw [show readFile fs orgPath = (fi.content, none) from by
                  unfold readFile; rw [hlk]; dsimp only; rw [hrf]; rfl] at hconv
                dsimp only at hconv
                rw [withRetry_const_none _ (fun _ => rfl)] at hconv
                cases hbad : fs.badWritePaths.contains mdPath with
                | true =>
                  rw [show atomicWriteFile fs mdPath
                      (OrgToMarkdown fi.content st.idMap) =
                    (some (.pathErr (strOf "write") mdPath .eacces), fs) from by
                    unfold atomicWriteFile; rw [if_pos hbad]] at hconv
                  dsimp only at hconv
                  rw [withRetry_const_pathErr] at hconv
                  exact Option.noConfusion (congrArg Prod.fst hconv)
                | false =>
                  rw [show atomicWriteFile fs mdPath
                      (OrgToMarkdown fi.content st.idMap) =
                    (none,
                     { fs with
                        files := setAssoc fs.files mdPath
                          { mtime := fs.clock,
                            content := OrgToMarkdown fi.content st.idMap,
                            readFails := false },
                        clock := fs.clock + 1 }) from by
                    unfold atomicWriteFile
                    rw [if_neg (by simpa using hbad)]] at hconv
                  dsimp only at hconv
                  rw [withRetry_const_none _ (fun _ => rfl)] at hconv
                  have hcfs : cfs =
                      { fs with
                        files := setAssoc fs.files mdPath
                          { mtime := fs.clock,
                            content := OrgToMarkdown fi.content st.idMap,
                            readFails := false },
                        clock := fs.clock + 1 } :=
                    (congrArg Prod.snd hconv).symm
                  subst hcfs
                  -- org state update succeeds
                  have horgLk : (setAssoc fs.files mdPath
                      { mtime := fs.clock,
                        content := OrgToMarkdown fi.content st.idMap,
                        readFails := false } : List (Str × FileInfo)).lookup orgPath =
                      some (if orgPath = mdPath then
                        { mtime := fs.clock,
                          content := OrgToMarkdown fi.content st.idMap,
                          readFails := false } else fi) := by
                    by_cases hpe : orgPath = mdPath
                    · rw [if_pos hpe, hpe, lookup_setAssoc_eq]
                    · rw [if_neg hpe, lookup_setAssoc_ne _ _ _ _ hpe, hlk]
                  rw [show StateUpdate hash st
                      { fs with
                        files := setAssoc fs.files mdPath
                          { mtime := fs.clock,
                            content := OrgToMarkdown fi.content st.idMap,
                            readFails := false },
                        clock := fs.clock + 1 } orgPath mdPath =
                      ({ st with
                        files := setAssoc st.files orgPath
                          { mtime := (if orgPath = mdPath then
                              { mtime := fs.clock,
                                content := OrgToMarkdown fi.content st.idMap,
                                readFails := false } else fi).mtime,
                            hash := hash (if orgPath = mdPath then
                              { mtime := fs.clock,
                                content := OrgToMarkdown fi.content st.idMap,
                                readFails := false } else fi).content,
                            pairedWith := mdPath } }, none) from by
                    unfold StateUpdate
                    rw [show ({ fs with
                        files := setAssoc fs.files mdPath
                          { mtime := fs.clock,
                            content := OrgToMarkdown fi.content st.idMap,
                            readFails := false },
                        clock := fs.clock + 1 } : FS).files = setAssoc fs.files mdPath
                          { mtime := fs.clock,
                            content := OrgToMarkdown fi.content st.idMap,
                            readFails := false } from rfl, horgLk]
                    by_cases hpe : orgPath = mdPath
                    · rw [if_pos hpe]
                      simp [if_pos hpe]
                    · rw [if_neg hpe]
                      simp [if_neg hpe, hrf]] at h
                  dsimp only at h
                  rw [show StateUpdate hash
                      ({ st with
                        files := setAssoc st.files orgPath
                          { mtime := (if orgPath = mdPath then
                              { mtime := fs.clock,
                                content := OrgToMarkdown fi.content st.idMap,
                                readFails := false } else fi).mtime,
                            hash := hash (if orgPath = mdPath then
                              { mtime := fs.clock,
                                content := OrgToMarkdown fi.content st.idMap,
                                readFails := false } else fi).content,
                            pairedWith := mdPath } })
                      { fs with
                        files := setAssoc fs.files mdPath
                          { mtime := fs.clock,
                            content := OrgToMarkdown fi.content st.idMap,
                            readFails := false },
                        clock := fs.clock + 1 } mdPath orgPath =
                      ({ st with
                        files := setAssoc (setAssoc st.files orgPath
                          { mtime := (if orgPath = mdPath then
                              { mtime := fs.clock,
                                content := OrgToMarkdown fi.content st.idMap,
                                readFails := false } else fi).mtime,
                            hash := hash (if orgPath = mdPath then
                              { mtime := fs.clock,
                                content := OrgToMarkdown fi.content st.idMap,
                                readFails := false } else fi).content,
                            pairedWith := mdPath }) mdPath
                          { mtime := fs.clock,
                            hash := hash (OrgToMarkdown fi.content st.idMap),
                            pairedWith := orgPath } }, none) from by
                    unfold StateUpdate
                    rw [show ({ fs with
                        files := setAssoc fs.files mdPath
                          { mtime := fs.clock,
                            content := OrgToMarkdown fi.content st.idMap,
                            readFails := false },
                        clock := fs.clock + 1 } : FS).files = setAssoc fs.files mdPath
                          { mtime := fs.clock,
                            content := OrgToMarkdown fi.content st.idMap,
                            readFails := false } from rfl, lookup_setAssoc_eq]
                    rfl] at h
                  dsimp only at h
                  exact Option.noConfusion h
      · -- winner obsidian: symmetric
        rw [if_pos hw] at h ⊢
        rw [if_neg (show ¬dec.winner = strOf "org" from by rw [hw]; decide)] at h ⊢
        cases hconv : convertMdToOrgS gen st fs mdPath orgPath with
        | mk cerr cfs =>
          cases cerr with
          | some ce => rfl
          | none =>
            exfalso
            rw [hconv] at h
            dsimp only at h
            unfold convertMdToOrgS at hconv
            cases hlk : fs.files.lookup mdPath with
            | none =>
              rw [show readFile fs mdPath =
                ([], some (.pathErr (strOf "open") mdPath .enoent)) from by
                unfold readFile; rw [hlk]] at hconv
              dsimp only at hconv
              rw [withRetry_const_pathErr] at hconv
              exact Option.noConfusion (congrArg Prod.fst hconv)
            | some fi =>
              cases hrf : fi.readFails with
              | true =>
                rw [show readFile fs mdPath =
                  ([], some (.pathErr (strOf "read") mdPath .eio)) from by
                  unfold readFile; rw [hlk]; dsimp only; rw [hrf]; rfl] at hconv
                dsimp only at hconv
                rw [withRetry_const_pathErr] at hconv
                exact Option.noConfusion (congrArg Prod.fst hconv)
              | false =>
                rw [show readFile fs mdPath = (fi.content, none) from by
                  unfold readFile; rw [hlk]; dsimp only; rw [hrf]; rfl] at hconv
                dsimp only at hconv
                rw [withRetry_const_none _ (fun _ => rfl)] at hconv
                cases hbad : fs.badWritePaths.contains orgPath with
                | true =>
                  rw [show atomicWriteFile fs orgPath
                      (MarkdownToOrg gen fi.content st.idMap) =
                    (some (.pathErr (strOf "write") orgPath .eacces), fs) from by
                    unfold atomicWriteFile; rw [if_pos hbad]] at hconv
                  dsimp only at hconv
                  rw [withRetry_const_pathErr] at hconv
                  exact Option.noConfusion (congrArg Prod.fst hconv)
                | false =>
                  rw [show atomicWriteFile fs orgPath
                      (MarkdownToOrg gen fi.content st.idMap) =
                    (none,
                     { fs with
                        files := setAssoc fs.files orgPath
                          { mtime := fs.clock,
                            content := MarkdownToOrg gen fi.content st.idMap,
                            readFails := false },
                        clock := fs.clock + 1 }) from by
                    unfold atomicWriteFile
                    rw [if_neg (by simpa using hbad)]] at hconv
                  dsimp only at hconv
                  rw [withRetry_const_none _ (fun _ => rfl)] at hconv
                  have hcfs : cfs =
                      { fs with
                        files := setAssoc fs.files orgPath
                          { mtime := fs.clock,
                            content := MarkdownToOrg gen fi.content st.idMap,
                            readFails := false },
                        clock := fs.clock + 1 } :=
                    (congrArg Prod.snd hconv).symm
                  subst hcfs
                  have horgLk : (setAssoc fs.files orgPath
                      { mtime := fs.clock,
                        content := MarkdownToOrg gen fi.content st.idMap,
                        readFails := false } : List (Str × FileInfo)).lookup orgPath =
                      some { mtime := fs.clock,
                             content := MarkdownToOrg gen fi.content st.idMap,
                             readFails := false } := lookup_setAssoc_eq _ _ _
                  rw [show StateUpdate hash st
                      { fs with
                        files := setAssoc fs.files orgPath
                          { mtime := fs.clock,
                            content := MarkdownToOrg gen fi.content st.idMap,
                            readFails := false },
                        clock := fs.clock + 1 } orgPath mdPath =
                      ({ st with
                        files := setAssoc st.files orgPath
                          { mtime := fs.clock,
                            hash := hash (MarkdownToOrg gen fi.content st.idMap),
                            pairedWith := mdPath } }, none) from by
                    unfold StateUpdate
                    rw [show ({ fs with
                        files := setAssoc fs.files orgPath
                          { mtime := fs.clock,
                            content := MarkdownToOrg gen fi.content st.idMap,
                            readFails := false },
                        clock := fs.clock + 1 } : FS).files = setAssoc fs.files orgPath
                          { mtime := fs.clock,
                            content := MarkdownToOrg gen fi.content st.idMap,
                            readFails := false } from rfl, horgLk]
                    rfl] at h
                  dsimp only at h
                  have hmdLk : (setAssoc fs.files orgPath
                      { mtime := fs.clock,
                        content := MarkdownToOrg gen fi.content st.idMap,
                        readFails := false } : List (Str × FileInfo)).lookup mdPath =
                      some (if mdPath = orgPath then
                        { mtime := fs.clock,
                          content := MarkdownToOrg gen fi.content st.idMap,
                          readFails := false } else fi) := by
                    by_cases hpe : mdPath = orgPath
                    · rw [if_pos hpe, hpe, lookup_setAssoc_eq]
                    · rw [if_neg hpe, lookup_setAssoc_ne _ _ _ _ hpe, hlk]
                  rw [show StateUpdate hash
                      ({ st with
                        files := setAssoc st.files orgPath
                          { mtime := fs.clock,
                            hash := hash (MarkdownToOrg gen fi.content st.idMap),
                            pairedWith := mdPath } })
                      { fs with
                        files := setAssoc fs.files orgPath
                          { mtime := fs.clock,
                            content := MarkdownToOrg gen fi.content st.idMap,
                            readFails := false },
                        clock := fs.clock + 1 } mdPath orgPath =
                      ({ st with
                        files := setAssoc (setAssoc st.files orgPath
                          { mtime := fs.clock,
                            hash := hash (MarkdownToOrg gen fi.content st.idMap),
                            pairedWith := mdPath }) mdPath
                          { mtime := (if mdPath = orgPath then
                              { mtime := fs.clock,
                                content := MarkdownToOrg gen fi.content st.idMap,
                                readFails := false } else fi).mtime,
                            hash := hash (if mdPath = orgPath then
                              { mtime := fs.clock,
                                content := MarkdownToOrg gen fi.content st.idMap,
                                readFails := false } else fi).content,
                            pairedWith := orgPath } }, none) from by
                    unfold StateUpdate
                    rw [show ({ fs with
                        files := setAssoc fs.files orgPath
                          { mtime := fs.clock,
                            content := MarkdownToOrg gen fi.content st.idMap,
                            readFails := false },
                        clock := fs.clock + 1 } : FS).files = setAssoc fs.files orgPath
                          { mtime := fs.clock,
                            content := MarkdownToOrg gen fi.content st.idMap,
                            readFails := false } from rfl, hmdLk]
                    by_cases hpe : mdPath = orgPath
                    · rw [if_pos hpe]
                      simp [if_pos hpe]
                    · rw [if_neg hpe]
                      simp [if_neg hpe, hrf]] at h
                  dsimp only at h
                  exact Option.noConfusion h


/-! ## Claim theorems -/

set_option maxRecDepth 20000 in
/-- Claim C3 (confirmed).  Whenever `ResolveConflict` returns a decision and
the specification's 7-row table `specWinner` — evaluated on the four booleans
(org exists, md exists, org changed, md changed), the policy and the two
modification times — prescribes a winner, the decision carries exactly that
winner; moreover the two "none" rows carry the documented reasons
("neither file exists" and "no changes detected"). -/
theorem C3_resolve_table (hash : Str → Str) (policy : Str) {st : State}
    {fs : FS} {orgPath mdPath : Str} {dec : ConflictDecision} {w : Str}
    (h : ResolveConflict hash policy st fs orgPath mdPath = some dec)
    (hspec : specWinner (statFS fs orgPath).isSome (statFS fs mdPath).isSome
      (HasChanged hash st fs orgPath).1 (HasChanged hash st fs mdPath).1
      policy (statFS fs orgPath) (statFS fs mdPath) = some w) :
    dec.winner = w ∧
    (statFS fs orgPath = none → statFS fs mdPath = none →
      dec.reason = strOf "neither file exists") ∧
    ((statFS fs orgPath).isSome = true → (statFS fs mdPath).isSome = true →
      (HasChanged hash st fs orgPath).1 = false →
      (HasChanged hash st fs mdPath).1 = false →
      dec.reason = strOf "no changes detected") := by
  have hsh := HasChanged_shape hash st fs orgPath
  have msh := HasChanged_shape hash st fs mdPath
  unfold ResolveConflict at h
  generalize hO : HasChanged hash st fs orgPath = oR at h hspec ⊢
  generalize hM : HasChanged hash st fs mdPath = mR at h hspec ⊢
  rw [hO] at hsh
  rw [hM] at msh
  obtain ⟨ochg, oerr⟩ := oR
  obtain ⟨mchg, merr⟩ := mR
  dsimp only at h hspec hsh msh ⊢
  rcases hsh with ⟨hSOn, hOe⟩ | ⟨hSOs, hOne⟩
  · -- org file absent
    injection hOe with hoc hoe
    subst hoc; subst hoe
    rw [hSOn] at hspec ⊢
    rw [if_neg (fun hx => hx.2 rfl)] at h
    rcases msh with ⟨hSMn, hMe⟩ | ⟨hSMs, hMne⟩
    · -- md file absent: row 1
      injection hMe with hmc hme
      subst hmc; subst hme
      rw [hSMn] at hspec ⊢
      rw [if_neg (fun hx => hx.2 rfl)] at h
      have hw := Option.some.inj hspec
      have hd := Option.some.inj h
      refine ⟨?_, ?_, ?_⟩
      · rw [← hd, ← hw]
      · intro _ _; rw [← hd]
      · intro hx _ _ _; exact Bool.noConfusion hx
    · -- md file present: row 3
      obtain ⟨b, hSMb⟩ := Option.isSome_iff_exists.mp hSMs
      rw [hSMb] at hspec ⊢
      cases merr with
      | some e =>
        rw [if_pos ⟨rfl, by simp [hMne]⟩] at h
        exact Option.noConfusion h
      | none =>
        rw [if_neg (fun hx => Bool.noConfusion hx.1)] at h
        have hw := Option.some.inj hspec
        have hd := Option.some.inj h
        refine ⟨?_, ?_, ?_⟩
        · rw [← hd, ← hw]
        · intro _ hx; exact Option.noConfusion hx
        · intro hx _ _ _; exact Bool.noConfusion hx
  · -- org file present
    obtain ⟨a, hSOa⟩ := Option.isSome_iff_exists.mp hSOs
    rw [hSOa] at hspec ⊢
    cases oerr with
    | some e =>
      rw [if_pos ⟨rfl, by simp [hOne]⟩] at h
      exact Option.noConfusion h
    | none =>
      rw [if_neg (fun hx => Bool.noConfusion hx.1)] at h
      rcases msh with ⟨hSMn, hMe⟩ | ⟨hSMs, hMne⟩
      · -- md absent: row 2
        injection hMe with hmc hme
        subst hmc; subst hme
        rw [hSMn] at hspec ⊢
        rw [if_neg (fun hx => hx.2 rfl)] at h
        have hw := Option.some.inj hspec
        have hd := Option.some.inj h
        refine ⟨?_, ?_, ?_⟩
        · rw [← hd, ← hw]
        · intro hx _; exact Option.noConfusion hx
        · intro _ hx _ _; exact Bool.noConfusion hx
      · -- both present
        obtain ⟨b, hSMb⟩ := Option.isSome_iff_exists.mp hSMs
        rw [hSMb] at hspec ⊢
        cases merr with
        | some e =>
          rw [if_pos ⟨rfl, by simp [hMne]⟩] at h
          exact Option.noConfusion h
        | none =>
          rw [if_neg (fun hx => Bool.noConfusion hx.1)] at h
          cases ochg with
          | false =>
            cases mchg with
            | false =>
              -- row 4: no changes
              have hw := Option.some.inj hspec
              have hd := Option.some.inj h
              refine ⟨?_, ?_, ?_⟩
              · rw [← hd, ← hw]
              · intro hx _; exact Option.noConfusion hx
              · intro _ _ _ _; rw [← hd]
            | true =>
              -- row 6: only md changed
              have hw := Option.some.inj hspec
              have hd := Option.some.inj h
              refine ⟨?_, ?_, ?_⟩
              · rw [← hd, ← hw]
              · intro hx _; exact Option.noConfusion hx
              · intro _ _ _ hx; exact Bool.noConfusion hx
          | true =>
            cases mchg with
            | false =>
              -- row 5: only org changed
              have hw := Option.some.inj hspec
              have hd := Option.some.inj h
              refine ⟨?_, ?_, ?_⟩
              · rw [← hd, ← hw]
              · intro hx _; exact Option.noConfusion hx
              · intro _ _ hx _; exact Bool.noConfusion hx
            | true =>
              -- row 7: both changed, policy decides
              unfold specWinner at hspec
              rw [hSOa, hSMb] at h
              by_cases hp1 : policy = strOf "use-org"
              · rw [if_pos hp1] at h hspec
                have hw := Option.some.inj hspec
                have hd := Option.some.inj h
                exact ⟨by rw [← hd, ← hw], fun hx _ => Option.noConfusion hx,
                  fun _ _ hx _ => Bool.noConfusion hx⟩
              · rw [if_neg hp1] at h hspec
                by_cases hp2 : policy = strOf "use-markdown"
                · rw [if_pos hp2] at h hspec
                  have hw := Option.some.inj hspec
                  have hd := Option.some.inj h
                  exact ⟨by rw [← hd, ← hw], fun hx _ => Option.noConfusion hx,
                    fun _ _ hx _ => Bool.noConfusion hx⟩
                · rw [if_neg hp2] at h hspec
                  dsimp only at h hspec
                  by_cases hab : a > b
                  · rw [if_pos hab] at h hspec
                    have hw := Option.some.inj hspec
                    have hd := Option.some.inj h
                    exact ⟨by rw [← hd, ← hw], fun hx _ => Option.noConfusion hx,
                      fun _ _ hx _ => Bool.noConfusion hx⟩
                  · rw [if_neg hab] at h
                    rw [if_neg hab] at hspec
                    by_cases hba : b > a
                    · rw [if_pos hba] at hspec
                      have hw := Option.some.inj hspec
                      have hd := Option.some.inj h
                      exact ⟨by rw [← hd, ← hw], fun hx _ => Option.noConfusion hx,
                        fun _ _ hx _ => Bool.noConfusion hx⟩
                    · rw [if_neg hba] at hspec
                      exact Option.noConfusion hspec


/-- Witness for C3: with an empty state and filesystem neither file exists,
and both the resolver and the specification table pick winner "none" with
reason "neither file exists". -/
theorem C3_resolve_table_witness :
    ({ winner := strOf "none", reason := strOf "neither file exists",
       orgChanged := false, mdChanged := false } : ConflictDecision).winner =
      strOf "none" ∧
    (statFS {} (strOf "a.org") = none → statFS {} (strOf "a.md") = none →
      ({ winner := strOf "none", reason := strOf "neither file exists",
         orgChanged := false, mdChanged := false } : ConflictDecision).reason =
        strOf "neither file exists") ∧
    ((statFS {} (strOf "a.org")).isSome = true →
      (statFS {} (strOf "a.md")).isSome = true →
      (HasChanged (fun s => s) {} {} (strOf "a.org")).1 = false →
      (HasChanged (fun s => s) {} {} (strOf "a.md")).1 = false →
      ({ winner := strOf "none", reason := strOf "neither file exists",
         orgChanged := false, mdChanged := false } : ConflictDecision).reason =
        strOf "no changes detected") :=
  C3_resolve_table (fun s => s) (strOf "use-org") rfl rfl

/-- Claim C4 (corrected).  `MarkdownToOrg` accepts the alias "hint" (it is in
the fixed callout table), but names the org block by uppercasing the alias
the user typed — `"> [!hint]\n> Body"` becomes
`"#+BEGIN_HINT\nBody\n#+END_HINT"` — not by the canonical family name.
The originally claimed output `#+BEGIN_TIP` is refuted by
`C4_counterexample`. -/
theorem C4_callout_alias :
    MarkdownToOrg gen0 (strOf "> [!hint]\n> Body") [] =
      strOf "#+BEGIN_HINT\nBody\n#+END_HINT" ∧
    strOf "hint" ∈ validCallouts := by
  exact ⟨by decide, by decide⟩

set_option maxRecDepth 20000 in
/-- Counterexample to C4 as stated: the conversion of `"> [!hint]\n> Body"`
is not the claimed canonical `"#+BEGIN_TIP\nBody\n#+END_TIP"`. -/
theorem C4_counterexample :
    MarkdownToOrg gen0 (strOf "> [!hint]\n> Body") [] ≠
      strOf "#+BEGIN_TIP\nBody\n#+END_TIP" := by decide

set_option maxRecDepth 20000 in
/-- Claim C5 (confirmed).  For a readable file `p`: a never-recorded path
reports changed; an equal recorded modification time reports unchanged; a
differing mtime with an unchanged content hash (a touch) reports unchanged;
a differing content hash reports changed.  All four cases also return no
error. -/
theorem C5_haschanged (hash : Str → Str) (st : State) (fs : FS) (p : Str)
    {fi : FileInfo} (hfs : fs.files.lookup p = some fi) (hrf : fi.readFails = false) :
    (st.files.lookup p = none → HasChanged hash st fs p = (true, none)) ∧
    (∀ r, st.files.lookup p = some r → fi.mtime = r.mtime →
      HasChanged hash st fs p = (false, none)) ∧
    (∀ r, st.files.lookup p = some r → fi.mtime ≠ r.mtime →
      hash fi.content = r.hash → HasChanged hash st fs p = (false, none)) ∧
    (∀ r, st.files.lookup p = some r → fi.mtime ≠ r.mtime →
      hash fi.content ≠ r.hash → HasChanged hash st fs p = (true, none)) := by
  have hch : ComputeHash hash fs p = (hash fi.content, none) := by
    unfold ComputeHash
    rw [hfs]
    dsimp only
    rw [hrf]
    rfl
  refine ⟨?_, ?_, ?_, ?_⟩
  · intro h0
    unfold HasChanged
    rw [hfs, h0]
  · intro r hr hmt
    unfold HasChanged
    rw [hfs, hr]
    dsimp only
    rw [if_pos hmt]
  · intro r hr hmt heq
    unfold HasChanged
    rw [hfs, hr]
    dsimp only
    rw [if_neg hmt, hch]
    dsimp only
    rw [heq]
    simp
  · intro r hr hmt hne
    unfold HasChanged
    rw [hfs, hr]
    dsimp only
    rw [if_neg hmt, hch]
    dsimp only
    simp [hne]

/-- Witness for C5: the tracked file `"a"` of `wSt`/`wFs` (recorded mtime 1,
content `"x"`, identity hash). -/
theorem C5_haschanged_witness :
    (wSt.files.lookup (strOf "a") = none →
      HasChanged (fun s => s) wSt wFs (strOf "a") = (true, none)) ∧
    (∀ r, wSt.files.lookup (strOf "a") = some r → (1 : Int) = r.mtime →
      HasChanged (fun s => s) wSt wFs (strOf "a") = (false, none)) ∧
    (∀ r, wSt.files.lookup (strOf "a") = some r → (1 : Int) ≠ r.mtime →
      strOf "x" = r.hash → HasChanged (fun s => s) wSt wFs (strOf "a") = (false, none)) ∧
    (∀ r, wSt.files.lookup (strOf "a") = some r → (1 : Int) ≠ r.mtime →
      strOf "x" ≠ r.hash → HasChanged (fun s => s) wSt wFs (strOf "a") = (true, none)) :=
  C5_haschanged (fun s => s) wSt wFs (strOf "a") rfl rfl

/-- Claim C6 (code bug).  `isRetryable` treats every path error as retryable:
it returns `true` for "file not found" (ENOENT) and permission-denied
(EACCES) errors as well, and `withRetry` with `maxRetries = 2` therefore
runs a constantly failing operation 3 times before giving up — the
specification says these errors are terminal for the pair and must not be
retried. -/
theorem C6_retry_not_transient (p : Str) :
    isRetryable (some (.pathErr (strOf "open") p .enoent)) = true ∧
    isRetryable (some (.pathErr (strOf "open") p .eacces)) = true ∧
    withRetry 2 (fun _ => some (.pathErr (strOf "open") p .enoent)) =
      (some (.wrap (strOf "failed after retries") (.pathErr (strOf "open") p .enoent)), 3) ∧
    withRetry 2 (fun _ => some (.pathErr (strOf "open") p .eacces)) =
      (some (.wrap (strOf "failed after retries") (.pathErr (strOf "open") p .eacces)), 3) :=
  ⟨rfl, rfl, rfl, rfl⟩

/-- Claim C7 (confirmed).  When `SyncFilePair` fails for the head pair of a
sync pass, the pass continues with the remaining pairs, the error is wrapped
with the pair's relative path and appended to the accumulated error list,
and the tracked sync state passed to the remaining pairs is unchanged
(`st := acc.st`), so the pair is detected as changed again on the next
pass. -/
theorem C7_sync_error_isolation (gen : Nat → Str) (hash : Str → Str) (policy : Str)
    (acc : SyncAcc) (relPath orgPath mdPath : Str) (pairs : List (Str × Str × Str))
    {e : GoErr}
    (h : (SyncFilePair gen hash policy acc.st acc.fs orgPath mdPath).1.2 = some e) :
    syncPairs gen hash policy ((relPath, orgPath, mdPath) :: pairs) acc =
      syncPairs gen hash policy pairs
        { acc with
            errors := acc.errors ++ [.wrap (strOf "sync failed for " ++ relPath) e],
            st := acc.st,
            fs := (SyncFilePair gen hash policy acc.st acc.fs orgPath mdPath).2.2 } := by
  have hstep : syncStep gen hash policy acc (relPath, orgPath, mdPath) =
      { acc with
          errors := acc.errors ++ [.wrap (strOf "sync failed for " ++ relPath) e],
          st := acc.st,
          fs := (SyncFilePair gen hash policy acc.st acc.fs orgPath mdPath).2.2 } := by
    unfold syncStep
    dsimp only
    rw [h]
    dsimp only
    rw [SyncFilePair_err_st gen hash policy acc.st acc.fs orgPath mdPath e h]
  unfold syncPairs
  rw [List.foldl_cons, hstep]

/-- Witness for C7: the pair over `wErrSt`/`wErrFs` fails (the org file
errors on read, so conflict resolution fails); the error is recorded with
the pair's relative path and the state handed on is unchanged. -/
theorem C7_sync_error_isolation_witness :
    syncPairs genSeq (fun s => s) (strOf "use-org")
        [(strOf "a", strOf "a.org", strOf "a.md")] { st := wErrSt, fs := wErrFs } =
      syncPairs genSeq (fun s => s) (strOf "use-org") []
        { errors := [.wrap (strOf "sync failed for " ++ strOf "a")
            (.str (strOf "conflict resolution failed"))],
          st := wErrSt, fs := wErrFs } :=
  C7_sync_error_isolation genSeq (fun s => s) (strOf "use-org")
    { st := wErrSt, fs := wErrFs } (strOf "a") (strOf "a.org") (strOf "a.md") [] rfl

set_option maxRecDepth 20000 in
/-- Claim C8 (confirmed).  The org task
`"** TODO [#A] Write tests\nSCHEDULED: <2024-01-15>"` converts to exactly
`"## - [ ] Write tests\n⏳ 2024-01-15\nPriority: high"`, and converting
that output back reproduces the original org text. -/
theorem C8_task_roundtrip :
    OrgToMarkdown (strOf "** TODO [#A] Write tests\nSCHEDULED: <2024-01-15>") [] =
      strOf "## - [ ] Write tests\n⏳ 2024-01-15\nPriority: high" ∧
    MarkdownToOrg gen0
        (strOf "## - [ ] Write tests\n⏳ 2024-01-15\nPriority: high") [] =
      strOf "** TODO [#A] Write tests\nSCHEDULED: <2024-01-15>" := by
  exact ⟨by decide, by decide⟩

set_option maxRecDepth 20000 in
set_option maxHeartbeats 4000000 in
/-- Claim C9 (corrected).  Every ASCII single-byte priority cookie on a task
heading is converted to a textual level: `[#A]` to high, `[#C]` to low, and
every other ASCII character — not only `[#B]` — to medium, so within the
single-byte range no code is left unconverted and the original claim is
refuted by `C9_counterexample`.  The ASCII bound marks the domain on which
the model's character indexing agrees with the source's byte indexing
(`rest[3] == ']'`): a multi-byte cookie fails the source's byte test and is
left unconverted, so the blanket statement stops at 128. -/
theorem C9_priority_map (q : Char) (hq : q.toNat < 128) :
    (o2mHeading (strOf "* TODO [#" ++ ([q] ++ strOf "] X")) [] =
      strOf "# - [ ] X\n" ++ strOf "Priority: " ++
        (if q = 'A' then strOf "high"
         else if q = 'C' then strOf "low" else strOf "medium") ++ strOf "\n") ∧
    OrgToMarkdown (strOf "* TODO [#Z] x") [] =
      strOf "# - [ ] x\nPriority: medium" := by
  clear hq
  constructor
  · by_cases hqa : q = 'A'
    · subst hqa; decide
    · by_cases hqc : q = 'C'
      · subst hqc; decide
      · rw [if_neg hqa, if_neg hqc]
        rw [show o2mHeading (strOf "* TODO [#" ++ ([q] ++ strOf "] X")) [] =
          strOf "# - [ ] X\n" ++ (strOf "Priority: " ++
            (if ([q] : Str) = strOf "A" then strOf "high"
             else if ([q] : Str) = strOf "C" then strOf "low"
             else strOf "medium") ++ strOf "\n") from rfl]
        rw [if_neg (show ¬(([q] : Str) = strOf "A") from
              fun hx => hqa (List.cons.inj hx).1),
            if_neg (show ¬(([q] : Str) = strOf "C") from
              fun hx => hqc (List.cons.inj hx).1)]
        simp [List.append_assoc]
  · decide

set_option maxRecDepth 20000 in
/-- Witness for C9: the mapping applied at the ASCII code `Z`, which is
neither `A` nor `C` and maps to medium. -/
theorem C9_priority_map_witness :
    'Z'.toNat < 128 ∧
    ((o2mHeading (strOf "* TODO [#" ++ (['Z'] ++ strOf "] X")) [] =
      strOf "# - [ ] X\n" ++ strOf "Priority: " ++
        (if 'Z' = 'A' then strOf "high"
         else if 'Z' = 'C' then strOf "low" else strOf "medium") ++ strOf "\n") ∧
    OrgToMarkdown (strOf "* TODO [#Z] x") [] =
      strOf "# - [ ] x\nPriority: medium") :=
  ⟨by decide, C9_priority_map 'Z' (by decide)⟩

/-- Counterexample to C9 as stated: the invalid cookie `[#Z]` is not left
unconverted — it is mapped to the "medium" level and the cookie text
disappears from the output. -/
theorem C9_counterexample :
    OrgToMarkdown (strOf "* TODO [#Z] x") [] = strOf "# - [ ] x\nPriority: medium" ∧
    containsSub (OrgToMarkdown (strOf "* TODO [#Z] x") []) (strOf "[#Z]") = false := by
  exact ⟨by decide, by decide⟩

set_option maxRecDepth 20000 in
/-- Claim C10 (confirmed).  `convertMarkdownLinksFull` returns the idMap it
was given, unchanged, for every input; in particular a generated identifier
for an unmapped non-UUID wikilink name is not inserted, so a later call on
the same name (same — still empty — map, fresh generator values) produces a
different identifier. -/
theorem C10_idmap_frame :
    (∀ (gen : Nat → Str) (line : Str) (idMap : List (Str × Str)) (n : Nat),
      (convertMarkdownLinksFull gen line idMap n).2.1 = idMap) ∧
    (convertMarkdownLinksFull genSeq (strOf "[[Note]]") [] 0).2.1 = [] ∧
    (convertMarkdownLinksFull genSeq (strOf "[[Note]]") [] 0).1 ≠
      (convertMarkdownLinksFull genSeq (strOf "[[Note]]") []
        (convertMarkdownLinksFull genSeq (strOf "[[Note]]") [] 0).2.2).1 :=
  ⟨fun gen line idMap n => rfl, rfl, by decide⟩

end NoteBridge
